import Mathlib

/-!
# db-test-script: the `/health` handler of `main.go`

A shallow embedding of `src/main.go` and the properties of its handler.

* The request and response structs are Lean structures with the Go field names.
* The calls into the drivers (`database/sql`, the MongoDB and the Redis client) are
  oracles collected in `Env`: each returns the text of the `error` of the call, or
  `none` for `nil`. Every library call the handler makes is also recorded, in
  program order and with its outcome, in a trace of `Effect`s.
* `defer` is modelled by an explicit stack in the `Frame` of the call; it is run,
  last in first out, when the body of the handler has finished.
* The `http.ResponseWriter` is modelled as an `httptest.ResponseRecorder` sees it:
  header map, status code and body. The body is kept as what was written: a line
  of text (`http.Error` writes its message and a newline) or the JSON encoding of
  a `HealthCheckResponse`.
* `json.NewDecoder(r.Body).Decode(&req)` is modelled on the behaviour of Go's
  `encoding/json` for the struct `HealthCheckRequest` (`Decode` below), on bodies
  that are UTF-8 text. The text of a decoding error is left to `Env`.
* `fmt.Sprintf` is modelled for the verbs `%s` and `%v`, which are all that
  `main.go` uses.
-/

namespace HealthCheck

/-! ## Data model (`main.go` lines 18-49) -/

/-- The `PostgreSQL` member of `HealthCheckRequest`. -/
structure PostgreSQLParams where
  User : String
  Password : String
  DBName : String
  Host : String
  Port : String
  SSLMode : String
deriving DecidableEq, Repr

/-- The `MySQL` member of `HealthCheckRequest`. -/
structure MySQLParams where
  User : String
  Password : String
  DBName : String
  Host : String
  Port : String
deriving DecidableEq, Repr

/-- The `MongoDB` member of `HealthCheckRequest`. -/
structure MongoDBParams where
  URI : String
deriving DecidableEq, Repr

/-- The `Redis` member of `HealthCheckRequest`; `DB` is a Go `int` (64 bit). -/
structure RedisParams where
  Address : String
  Password : String
  DB : Int
deriving DecidableEq, Repr

/-- The struct `HealthCheckRequest`. -/
structure HealthCheckRequest where
  PostgreSQL : PostgreSQLParams
  MySQL : MySQLParams
  MongoDB : MongoDBParams
  Redis : RedisParams
deriving DecidableEq, Repr

/-- The zero value that `var req HealthCheckRequest` declares. -/
def HealthCheckRequest.zero : HealthCheckRequest :=
  { PostgreSQL := ⟨"", "", "", "", "", ""⟩
    MySQL := ⟨"", "", "", "", ""⟩
    MongoDB := ⟨""⟩
    Redis := ⟨"", "", 0⟩ }

/-- The struct `HealthCheckResponse`. -/
structure HealthCheckResponse where
  PostgreSQL : String
  MySQL : String
  MongoDB : String
  Redis : String
deriving DecidableEq, Repr

/-- The zero value of `HealthCheckResponse{}`. -/
def HealthCheckResponse.zero : HealthCheckResponse := ⟨"", "", "", ""⟩

/-! ## JSON text, as `encoding/json` reads it -/

/-- A JSON value; a number keeps its literal text, as Go's decoder does until it
knows the destination type. -/
inductive JSON where
  | null
  | bool (b : Bool)
  | num (lit : String)
  | str (s : String)
  | arr (elems : List JSON)
  | obj (members : List (String × JSON))
deriving Repr

/-- The errors `(*json.Decoder).Decode` returns: `io.EOF`, `io.ErrUnexpectedEOF`,
a `*json.SyntaxError` (the offending character, of which Go reports the first
byte, and the scanner's context) and a `*json.UnmarshalTypeError` (the description
of the JSON value and the path of the field). -/
inductive DecodeError where
  | EOF
  | ErrUnexpectedEOF
  | SyntaxError (c : Char) (context : String)
  | UnmarshalTypeError (value : String) (field : String)
deriving DecidableEq, Repr

/-- What a scanning step yields: a result and the unread input. -/
abbrev Scan (α : Type) := Except DecodeError (α × List Char)

/-- The scanner's `isSpace`. -/
def isSpace (c : Char) : Bool :=
  c == ' ' || c == '\t' || c == '\r' || c == '\n'

/-- Skips JSON white space. -/
def skipSpace : List Char → List Char
  | [] => []
  | c :: cs => if isSpace c then skipSpace cs else c :: cs

/-- The scanner's `maxNestingDepth`. -/
def maxNestingDepth : Nat := 10000

/-- Is `c` a decimal digit. -/
def isDigit (c : Char) : Bool := '0' ≤ c && c ≤ '9'

/-- The value of a hexadecimal digit, as in `getu4`. -/
def hexVal (c : Char) : Option Nat :=
  if '0' ≤ c ∧ c ≤ '9' then some (c.toNat - '0'.toNat)
  else if 'a' ≤ c ∧ c ≤ 'f' then some (c.toNat - 'a'.toNat + 10)
  else if 'A' ≤ c ∧ c ≤ 'F' then some (c.toNat - 'A'.toNat + 10)
  else none

/-- Reads the four hexadecimal digits of a `\u` escape: the first character that
is no hexadecimal digit is a syntax error, the end of input an unexpected EOF. -/
def scanHex4 : List Char → Scan Nat
  | a :: b :: c :: d :: rest =>
    match hexVal a with
    | none => .error (.SyntaxError a "in \\u hexadecimal character escape")
    | some x =>
      match hexVal b with
      | none => .error (.SyntaxError b "in \\u hexadecimal character escape")
      | some y =>
        match hexVal c with
        | none => .error (.SyntaxError c "in \\u hexadecimal character escape")
        | some z =>
          match hexVal d with
          | none => .error (.SyntaxError d "in \\u hexadecimal character escape")
          | some w => .ok (((x * 16 + y) * 16 + z) * 16 + w, rest)
  | cs =>
    match cs.find? (fun c => (hexVal c).isNone) with
    | some c => .error (.SyntaxError c "in \\u hexadecimal character escape")
    | none => .error .ErrUnexpectedEOF

/-- The Unicode replacement character U+FFFD. -/
def replacementChar : Char := Char.ofNat 0xFFFD

/-- The second half of a surrogate pair: after a `\u` escape with the high
surrogate `rr`, a `\u` escape with a low surrogate; `unquote` combines the two into
one character (`utf16.DecodeRune`). -/
def scanLowSurrogate (rr : Nat) : List Char → Option (Char × List Char)
  | c1 :: c2 :: a :: b :: c :: d :: rest =>
    if c1 = '\\' ∧ c2 = 'u' then
      match hexVal a, hexVal b, hexVal c, hexVal d with
      | some x, some y, some z, some w =>
        let rr1 := ((x * 16 + y) * 16 + z) * 16 + w
        if rr < 0xDC00 ∧ 0xDC00 ≤ rr1 ∧ rr1 < 0xE000 then
          some (Char.ofNat ((rr - 0xD800) * 0x400 + (rr1 - 0xDC00) + 0x10000), rest)
        else none
      | _, _, _, _ => none
    else none
  | _ => none

/-- What follows a backslash in a string literal (`stateInStringEsc` and the
`\u` states, unquoted as in `unquote`): the character the escape stands for. A
surrogate that is not the first half of a pair becomes U+FFFD. -/
def scanEscape : List Char → Scan Char
  | [] => .error .ErrUnexpectedEOF
  | e :: rest =>
    if e = '"' ∨ e = '\\' ∨ e = '/' then .ok (e, rest)
    else if e = 'b' then .ok ('\x08', rest)
    else if e = 'f' then .ok ('\x0c', rest)
    else if e = 'n' then .ok ('\n', rest)
    else if e = 'r' then .ok ('\r', rest)
    else if e = 't' then .ok ('\t', rest)
    else if e = 'u' then
      match scanHex4 rest with
      | .error err => .error err
      | .ok (rr, rest1) =>
        if 0xD800 ≤ rr ∧ rr < 0xE000 then
          match scanLowSurrogate rr rest1 with
          | some (ch, rest2) => .ok (ch, rest2)
          | none => .ok (replacementChar, rest1)
        else .ok (Char.ofNat rr, rest1)
    else .error (.SyntaxError e "in string escape code")

/-- The body of a string literal, after its opening quote: scans to the closing
quote and unquotes as `unquote` does. The first argument bounds the number of
steps; the result is `none` when it is used up, which `scanString_fuel` shows not
to happen when it exceeds the length of the input. -/
def scanString : Nat → List Char → List Char → Option (Scan String)
  | 0, _, _ => none
  | _ + 1, _, [] => some (.error .ErrUnexpectedEOF)
  | fuel + 1, acc, c :: cs =>
    if c = '"' then some (.ok (String.mk acc.reverse, cs))
    else if c = '\\' then
      match scanEscape cs with
      | .error err => some (.error err)
      | .ok (ch, rest) => scanString fuel (ch :: acc) rest
    else if c.toNat < 0x20 then some (.error (.SyntaxError c "in string literal"))
    else scanString fuel (c :: acc) cs

/-- Takes the decimal digits at the front of the input. -/
def takeDigits : List Char → List Char × List Char
  | [] => ([], [])
  | c :: cs =>
    if isDigit c then
      let (ds, rest) := takeDigits cs
      (c :: ds, rest)
    else ([], c :: cs)

/-- The digits of an exponent (states `stateESign`, `stateE0`): one digit at
least. -/
def scanExpDigits (acc : List Char) : List Char → Scan (List Char)
  | [] => .error .ErrUnexpectedEOF
  | d :: cs =>
    if isDigit d then
      let (ds, rest) := takeDigits cs
      .ok (acc ++ d :: ds, rest)
    else .error (.SyntaxError d "in exponent of numeric literal")

/-- The exponent of a number, after `e` or `E` (state `stateE`): an optional sign,
then the digits. -/
def scanExp (acc : List Char) : List Char → Scan (List Char)
  | [] => .error .ErrUnexpectedEOF
  | c :: cs =>
    if c = '+' ∨ c = '-' then scanExpDigits (acc ++ [c]) cs
    else scanExpDigits acc (c :: cs)

/-- The rest of a number once its integer part `acc` is read (states `state0` and
`state1` onwards): an optional fraction and an optional exponent. -/
def scanFracExp (acc : List Char) : List Char → Scan (List Char)
  | [] => .ok (acc, [])
  | c :: cs =>
    if c = '.' then
      match cs with
      | [] => .error .ErrUnexpectedEOF
      | d :: cs1 =>
        if isDigit d then
          let (ds, rest) := takeDigits cs1
          match rest with
          | [] => .ok (acc ++ '.' :: d :: ds, [])
          | e :: rest1 =>
            if e = 'e' ∨ e = 'E' then scanExp (acc ++ '.' :: d :: ds ++ [e]) rest1
            else .ok (acc ++ '.' :: d :: ds, e :: rest1)
        else .error (.SyntaxError d "after decimal point in numeric literal")
    else if c = 'e' ∨ c = 'E' then scanExp (acc ++ [c]) cs
    else .ok (acc, c :: cs)

/-- The integer part of a number, after an optional minus sign `acc` (states
`stateNeg`, `state0`, `state1`). -/
def scanInt (acc : List Char) : List Char → Scan (List Char)
  | [] => .error .ErrUnexpectedEOF
  | c :: cs =>
    if c = '0' then scanFracExp (acc ++ [c]) cs
    else if isDigit c then
      let (ds, rest) := takeDigits cs
      scanFracExp (acc ++ c :: ds) rest
    else .error (.SyntaxError c "in numeric literal")

/-- The rest of a literal `true`, `false` or `null`: `expected` are the letters
still to come, `name` the literal. -/
def scanLiteral (name : String) : List Char → List Char → Scan Unit
  | [], cs => .ok ((), cs)
  | _ :: _, [] => .error .ErrUnexpectedEOF
  | e :: es, c :: cs =>
    if c = e then scanLiteral name es cs
    else .error (.SyntaxError c
      ("in literal " ++ name ++ " (expecting '" ++ String.singleton e ++ "')"))

mutual
/-- One JSON value at the front of the input (`stateBeginValue`); `depth` is the
number of arrays and objects that are open. The first argument bounds the depth of
the recursion; the result is `none` when it is used up, which `scanValue_fuel`
shows not to happen for the bound `readValue` passes. -/
def scanValue : Nat → Nat → List Char → Option (Scan JSON)
  | 0, _, _ => none
  | fuel + 1, depth, cs =>
    match skipSpace cs with
    | [] => some (.error .ErrUnexpectedEOF)
    | c :: rest =>
      if c = '{' then
        if depth + 1 ≤ maxNestingDepth then
          match skipSpace rest with
          | [] => some (.error .ErrUnexpectedEOF)
          | c1 :: rest1 =>
            if c1 = '}' then some (.ok (.obj [], rest1))
            else
              match scanMembers fuel (depth + 1) [] rest with
              | none => none
              | some (.error e) => some (.error e)
              | some (.ok (ms, rest2)) => some (.ok (.obj ms, rest2))
        else some (.error (.SyntaxError c "exceeded max depth"))
      else if c = '[' then
        if depth + 1 ≤ maxNestingDepth then
          match skipSpace rest with
          | [] => some (.error .ErrUnexpectedEOF)
          | c1 :: rest1 =>
            if c1 = ']' then some (.ok (.arr [], rest1))
            else
              match scanElems fuel (depth + 1) [] rest with
              | none => none
              | some (.error e) => some (.error e)
              | some (.ok (vs, rest2)) => some (.ok (.arr vs, rest2))
        else some (.error (.SyntaxError c "exceeded max depth"))
      else if c = '"' then
        match scanString (rest.length + 1) [] rest with
        | none => none
        | some (.error e) => some (.error e)
        | some (.ok (s, rest1)) => some (.ok (.str s, rest1))
      else if c = '-' then
        match scanInt [c] rest with
        | .error e => some (.error e)
        | .ok (lit, rest1) => some (.ok (.num (String.mk lit), rest1))
      else if isDigit c then
        match scanInt [] (c :: rest) with
        | .error e => some (.error e)
        | .ok (lit, rest1) => some (.ok (.num (String.mk lit), rest1))
      else if c = 't' then
        match scanLiteral "true" ['r', 'u', 'e'] rest with
        | .error e => some (.error e)
        | .ok (_, rest1) => some (.ok (.bool true, rest1))
      else if c = 'f' then
        match scanLiteral "false" ['a', 'l', 's', 'e'] rest with
        | .error e => some (.error e)
        | .ok (_, rest1) => some (.ok (.bool false, rest1))
      else if c = 'n' then
        match scanLiteral "null" ['u', 'l', 'l'] rest with
        | .error e => some (.error e)
        | .ok (_, rest1) => some (.ok (.null, rest1))
      else some (.error (.SyntaxError c "looking for beginning of value"))
/-- The elements of a non-empty array, up to and including its `]`. -/
def scanElems : Nat → Nat → List JSON → List Char → Option (Scan (List JSON))
  | 0, _, _, _ => none
  | fuel + 1, depth, acc, cs =>
    match scanValue fuel depth cs with
    | none => none
    | some (.error e) => some (.error e)
    | some (.ok (v, rest)) =>
      match skipSpace rest with
      | [] => some (.error .ErrUnexpectedEOF)
      | c :: rest1 =>
        if c = ',' then scanElems fuel depth (v :: acc) rest1
        else if c = ']' then some (.ok ((v :: acc).reverse, rest1))
        else some (.error (.SyntaxError c "after array element"))
/-- The members of a non-empty object, up to and including its `}`. -/
def scanMembers : Nat → Nat → List (String × JSON) → List Char →
    Option (Scan (List (String × JSON)))
  | 0, _, _, _ => none
  | fuel + 1, depth, acc, cs =>
    match skipSpace cs with
    | [] => some (.error .ErrUnexpectedEOF)
    | q :: rest =>
      if q = '"' then
        match scanString (rest.length + 1) [] rest with
        | none => none
        | some (.error e) => some (.error e)
        | some (.ok (key, rest1)) =>
          match skipSpace rest1 with
          | [] => some (.error .ErrUnexpectedEOF)
          | colon :: rest2 =>
            if colon = ':' then
              match scanValue fuel depth rest2 with
              | none => none
              | some (.error e) => some (.error e)
              | some (.ok (v, rest3)) =>
                match skipSpace rest3 with
                | [] => some (.error .ErrUnexpectedEOF)
                | c :: rest4 =>
                  if c = ',' then scanMembers fuel depth ((key, v) :: acc) rest4
                  else if c = '}' then some (.ok (((key, v) :: acc).reverse, rest4))
                  else some (.error (.SyntaxError c "after object key:value pair"))
            else some (.error (.SyntaxError colon "after object key"))
      else some (.error (.SyntaxError q "looking for beginning of object key string"))
end

/-- The step `(*Decoder).readValue`: the first JSON value of the stream. Input
that holds white space only is `io.EOF`; what follows the value is left unread.
The bound passed to `scanValue` is never used up (`readValue_fuel`), so the first
alternative below is never taken. -/
def readValue (body : String) : Except DecodeError JSON :=
  match skipSpace body.data with
  | [] => .error .EOF
  | cs =>
    match scanValue (2 * cs.length + 1) 0 cs with
    | none => .error .ErrUnexpectedEOF
    | some (.error e) => .error e
    | some (.ok (v, _)) => .ok v


/-! ## Storing a JSON value into `HealthCheckRequest` (`(*decodeState).value`) -/

/-- The folding of a key that the decoder matches field names with (`foldName`):
ASCII letters are upper-cased; of the characters outside ASCII only U+017F and
U+212A fold to an ASCII letter. -/
def foldChar (c : Char) : Char :=
  if 'a' ≤ c ∧ c ≤ 'z' then Char.ofNat (c.toNat - 32)
  else if c = Char.ofNat 0x17F then 'S'
  else if c = Char.ofNat 0x212A then 'K'
  else c

/-- Does the object key `key` select the struct field tagged `name`: an exact
match, or else a match of the folded names. -/
def matchesField (key name : String) : Bool :=
  key == name || key.data.map foldChar == name.data.map foldChar

/-- The description of a JSON value in an `UnmarshalTypeError`. -/
def describe : JSON → String
  | .null => "null"
  | .bool _ => "bool"
  | .num _ => "number"
  | .str _ => "string"
  | .arr _ => "array"
  | .obj _ => "object"

/-- The decoder's `saveError`: the first error is kept, decoding goes on. -/
def saveError (saved : Option DecodeError) (e : DecodeError) : Option DecodeError :=
  match saved with
  | some first => some first
  | none => some e

/-- The value of a string of decimal digits. -/
def digitsValue (ds : List Char) : Nat :=
  ds.foldl (fun n d => 10 * n + (d.toNat - '0'.toNat)) 0

/-- The call `strconv.ParseInt(lit, 10, 64)` on a JSON number literal: an integer
in the range of `int64`, written without fraction and exponent. -/
def parseInt64 (lit : String) : Option Int :=
  let (neg, ds) :=
    match lit.data with
    | '-' :: ds => (true, ds)
    | ds => (false, ds)
  if ds ≠ [] ∧ ds.all isDigit then
    let n : Int := if neg then -(digitsValue ds : Int) else (digitsValue ds : Int)
    if -(2 ^ 63 : Int) ≤ n ∧ n < (2 ^ 63 : Int) then some n else none
  else none

/-- Stores into a `string` field: a JSON string sets it, `null` leaves it, any
other value is a type error. -/
def storeString (field : String) (v : JSON) (cur : String) (saved : Option DecodeError) :
    String × Option DecodeError :=
  match v with
  | .str s => (s, saved)
  | .null => (cur, saved)
  | v => (cur, saveError saved (.UnmarshalTypeError (describe v) field))

/-- Stores into an `int` field. -/
def storeInt (field : String) (v : JSON) (cur : Int) (saved : Option DecodeError) :
    Int × Option DecodeError :=
  match v with
  | .num lit =>
    match parseInt64 lit with
    | some n => (n, saved)
    | none => (cur, saveError saved (.UnmarshalTypeError ("number " ++ lit) field))
  | .null => (cur, saved)
  | v => (cur, saveError saved (.UnmarshalTypeError (describe v) field))

/-- One member of the `postgresql` object. -/
def storePostgreSQLField (acc : PostgreSQLParams × Option DecodeError) (m : String × JSON) :
    PostgreSQLParams × Option DecodeError :=
  let (p, saved) := acc
  if matchesField m.1 "user" then
    let (s, sv) := storeString "postgresql.user" m.2 p.User saved
    ({ p with User := s }, sv)
  else if matchesField m.1 "password" then
    let (s, sv) := storeString "postgresql.password" m.2 p.Password saved
    ({ p with Password := s }, sv)
  else if matchesField m.1 "dbname" then
    let (s, sv) := storeString "postgresql.dbname" m.2 p.DBName saved
    ({ p with DBName := s }, sv)
  else if matchesField m.1 "host" then
    let (s, sv) := storeString "postgresql.host" m.2 p.Host saved
    ({ p with Host := s }, sv)
  else if matchesField m.1 "port" then
    let (s, sv) := storeString "postgresql.port" m.2 p.Port saved
    ({ p with Port := s }, sv)
  else if matchesField m.1 "sslmode" then
    let (s, sv) := storeString "postgresql.sslmode" m.2 p.SSLMode saved
    ({ p with SSLMode := s }, sv)
  else (p, saved)

/-- One member of the `mysql` object. -/
def storeMySQLField (acc : MySQLParams × Option DecodeError) (m : String × JSON) :
    MySQLParams × Option DecodeError :=
  let (p, saved) := acc
  if matchesField m.1 "user" then
    let (s, sv) := storeString "mysql.user" m.2 p.User saved
    ({ p with User := s }, sv)
  else if matchesField m.1 "password" then
    let (s, sv) := storeString "mysql.password" m.2 p.Password saved
    ({ p with Password := s }, sv)
  else if matchesField m.1 "dbname" then
    let (s, sv) := storeString "mysql.dbname" m.2 p.DBName saved
    ({ p with DBName := s }, sv)
  else if matchesField m.1 "host" then
    let (s, sv) := storeString "mysql.host" m.2 p.Host saved
    ({ p with Host := s }, sv)
  else if matchesField m.1 "port" then
    let (s, sv) := storeString "mysql.port" m.2 p.Port saved
    ({ p with Port := s }, sv)
  else (p, saved)

/-- One member of the `mongodb` object. -/
def storeMongoDBField (acc : MongoDBParams × Option DecodeError) (m : String × JSON) :
    MongoDBParams × Option DecodeError :=
  let (p, saved) := acc
  if matchesField m.1 "uri" then
    let (s, sv) := storeString "mongodb.uri" m.2 p.URI saved
    ({ p with URI := s }, sv)
  else (p, saved)

/-- One member of the `redis` object. -/
def storeRedisField (acc : RedisParams × Option DecodeError) (m : String × JSON) :
    RedisParams × Option DecodeError :=
  let (p, saved) := acc
  if matchesField m.1 "address" then
    let (s, sv) := storeString "redis.address" m.2 p.Address saved
    ({ p with Address := s }, sv)
  else if matchesField m.1 "password" then
    let (s, sv) := storeString "redis.password" m.2 p.Password saved
    ({ p with Password := s }, sv)
  else if matchesField m.1 "db" then
    let (n, sv) := storeInt "redis.db" m.2 p.DB saved
    ({ p with DB := n }, sv)
  else (p, saved)

/-- Stores into a field of struct type: an object is stored member by member in
the order of the text (a repeated key stores again), `null` leaves the struct, any
other value is a type error. -/
def storeStruct {α : Type} (field : String)
    (storeField : α × Option DecodeError → String × JSON → α × Option DecodeError)
    (v : JSON) (cur : α) (saved : Option DecodeError) : α × Option DecodeError :=
  match v with
  | .obj ms => ms.foldl storeField (cur, saved)
  | .null => (cur, saved)
  | v => (cur, saveError saved (.UnmarshalTypeError (describe v) field))

/-- One member of the top-level object. -/
def storeRequestField (acc : HealthCheckRequest × Option DecodeError) (m : String × JSON) :
    HealthCheckRequest × Option DecodeError :=
  let (req, saved) := acc
  if matchesField m.1 "postgresql" then
    let (p, sv) := storeStruct "postgresql" storePostgreSQLField m.2 req.PostgreSQL saved
    ({ req with PostgreSQL := p }, sv)
  else if matchesField m.1 "mysql" then
    let (p, sv) := storeStruct "mysql" storeMySQLField m.2 req.MySQL saved
    ({ req with MySQL := p }, sv)
  else if matchesField m.1 "mongodb" then
    let (p, sv) := storeStruct "mongodb" storeMongoDBField m.2 req.MongoDB saved
    ({ req with MongoDB := p }, sv)
  else if matchesField m.1 "redis" then
    let (p, sv) := storeStruct "redis" storeRedisField m.2 req.Redis saved
    ({ req with Redis := p }, sv)
  else (req, saved)

/-- The step `d.unmarshal(&req)` on a freshly declared `req`: the value is stored
into the zero request, and the first saved type error, if any, is the result. -/
def unmarshal (v : JSON) : Except DecodeError HealthCheckRequest :=
  match storeStruct "" storeRequestField v HealthCheckRequest.zero none with
  | (_, some e) => .error e
  | (req, none) => .ok req

/-- The call `json.NewDecoder(r.Body).Decode(&req)` on a body that is UTF-8 text. -/
def Decode (body : String) : Except DecodeError HealthCheckRequest :=
  match readValue body with
  | .error e => .error e
  | .ok v => unmarshal v


/-! ## `fmt.Sprintf` -/

/-- The format scan of `fmt.Sprintf` for the verbs `main.go` uses, `%s` and `%v`,
on operands that are strings (an `error` operand is its `Error()` text): each verb
is replaced by the next operand, unchanged; every other character is copied. A verb
without operand prints as Go's `%!s(MISSING)`. -/
def sprintfChars : List Char → List String → List Char
  | [], _ => []
  | '%' :: 's' :: format, [] => "%!s(MISSING)".data ++ sprintfChars format []
  | '%' :: 'v' :: format, [] => "%!v(MISSING)".data ++ sprintfChars format []
  | '%' :: 's' :: format, a :: args => a.data ++ sprintfChars format args
  | '%' :: 'v' :: format, a :: args => a.data ++ sprintfChars format args
  | c :: format, args => c :: sprintfChars format args

/-- The call `fmt.Sprintf(format, args...)`. -/
def Sprintf (format : String) (args : List String) : String :=
  String.mk (sprintfChars format.data args)

/-! ## The libraries the handler calls -/

/-- A `*sql.DB`, identified by the arguments of the `sql.Open` that made it. -/
structure DB where
  driverName : String
  dataSourceName : String
deriving DecidableEq, Repr

/-- A `*mongo.Client`, identified by the URI it was connected with. -/
structure MongoClient where
  uri : String
deriving DecidableEq, Repr

/-- The struct `redis.Options`, with the three fields `connectRedis` sets. -/
structure RedisOptions where
  Addr : String
  Password : String
  DB : Int
deriving DecidableEq, Repr

/-- A `*redis.Client`, identified by its options. -/
structure RedisClient where
  opt : RedisOptions
deriving DecidableEq, Repr

/-- The outcomes of the library calls, one oracle per call. An `error` is
represented by its `Error()` text, `none` is the `nil` error. -/
structure Env where
  /-- The error of `sql.Open(driverName, dataSourceName)`. -/
  sqlOpen : String → String → Option String
  /-- The error of `(*sql.DB).Ping`. -/
  dbPing : DB → Option String
  /-- The error of `mongo.Connect` on the options `ApplyURI(uri)`. -/
  mongoConnect : String → Option String
  /-- The error of `(*mongo.Client).Ping`. -/
  mongoPing : MongoClient → Option String
  /-- The error of `rdb.Ping(ctx).Result()`. -/
  redisPing : RedisClient → Option String
  /-- The `Error()` text of a decoding error. -/
  decodeErrorText : DecodeError → String

/-- A client handle the handler can hold. -/
inductive Client where
  | sql (db : DB)
  | mongo (c : MongoClient)
  | redis (c : RedisClient)
deriving DecidableEq, Repr

/-- The library calls of one run, in program order, each with its outcome. -/
inductive Effect where
  | jsonDecode (body : String)
  | httpError (error : String) (code : Nat)
  | sqlOpen (driverName dataSourceName : String) (err : Option String)
  | dbPing (db : DB) (err : Option String)
  | dbClose (db : DB)
  | mongoConnect (uri : String) (err : Option String)
  | mongoPing (c : MongoClient) (err : Option String)
  | mongoDisconnect (c : MongoClient)
  | redisNewClient (opt : RedisOptions)
  | redisPing (c : RedisClient) (err : Option String)
  | redisClose (c : RedisClient)
  | headerSet (key value : String)
  | jsonEncode (v : HealthCheckResponse)
deriving DecidableEq, Repr

/-- What has been written to the response body: a line of text (`fmt.Fprintln`)
or the JSON encoding of a response followed by a newline (`Encoder.Encode`). -/
inductive Written where
  | line (text : String)
  | json (v : HealthCheckResponse)
deriving DecidableEq, Repr

/-- The `http.ResponseWriter` as an `httptest.ResponseRecorder` observes it: the
header map, the status code and the headers sent with it once the header is
written, and the body. -/
structure ResponseWriter where
  header : List (String × String)
  wroteHeader : Option (Nat × List (String × String))
  body : List Written
deriving DecidableEq, Repr

/-- The method `Header().Set(key, value)`. -/
def ResponseWriter.headerSet (w : ResponseWriter) (key value : String) : ResponseWriter :=
  { w with header := (key, value) :: w.header.filter (fun kv => kv.1 != key) }

/-- The method `WriteHeader(code)`; a second call changes nothing. -/
def ResponseWriter.WriteHeader (w : ResponseWriter) (code : Nat) : ResponseWriter :=
  match w.wroteHeader with
  | some _ => w
  | none => { w with wroteHeader := some (code, w.header) }

/-- The method `Write`: the first write sends the header with status 200 when no
header was written before. -/
def ResponseWriter.Write (w : ResponseWriter) (data : Written) : ResponseWriter :=
  let w1 := w.WriteHeader 200
  { w1 with body := w1.body ++ [data] }

/-- The function `http.Error(w, error, code)`. -/
def ResponseWriter.Error (w : ResponseWriter) (error : String) (code : Nat) : ResponseWriter :=
  (((w.headerSet "Content-Type" "text/plain; charset=utf-8").headerSet
    "X-Content-Type-Options" "nosniff").WriteHeader code).Write (.line error)

/-- The status code of the response. -/
def ResponseWriter.Code (w : ResponseWriter) : Option Nat :=
  w.wroteHeader.map (fun p => p.1)

/-- The `Content-Type` header the response was sent with. -/
def ResponseWriter.ContentType (w : ResponseWriter) : Option String :=
  w.wroteHeader.bind (fun p => p.2.lookup "Content-Type")

/-- An HTTP request, as far as the handler reads it. -/
structure Request where
  Method : String
  Body : String
deriving DecidableEq, Repr

/-! ## The program (`main.go` lines 51-167) -/

/-- The state of one call of the handler: the trace so far, the stack of deferred
calls (the last deferred first) and the response writer. -/
structure Frame where
  trace : List Effect
  deferred : List Effect
  w : ResponseWriter
deriving DecidableEq, Repr

/-- The frame a call starts with. -/
def Frame.init : Frame := ⟨[], [], ⟨[], none, []⟩⟩

/-- Computations of the handler. -/
abbrev Go := StateM Frame

/-- Records a library call. -/
def emit (e : Effect) : Go Unit :=
  modify fun f => { f with trace := f.trace ++ [e] }

/-- The statement `defer e`. -/
def defer (e : Effect) : Go Unit :=
  modify fun f => { f with deferred := e :: f.deferred }

/-- The function `connectPostgres`. -/
def connectPostgres (env : Env) (user password dbname host port sslmode : String) :
    Go (Except String DB) := do
  let connStr := Sprintf "user=%s password=%s dbname=%s host=%s port=%s sslmode=%s"
    [user, password, dbname, host, port, sslmode]
  let err := env.sqlOpen "postgres" connStr
  emit (.sqlOpen "postgres" connStr err)
  match err with
  | some err => return .error err
  | none => return .ok ⟨"postgres", connStr⟩

/-- The function `connectMySQL`. -/
def connectMySQL (env : Env) (user password dbname host port : String) :
    Go (Except String DB) := do
  let dsn := Sprintf "%s:%s@tcp(%s:%s)/%s" [user, password, host, port, dbname]
  let err := env.sqlOpen "mysql" dsn
  emit (.sqlOpen "mysql" dsn err)
  match err with
  | some err => return .error err
  | none => return .ok ⟨"mysql", dsn⟩

/-- The function `connectMongoDB`. -/
def connectMongoDB (env : Env) (uri : String) : Go (Except String MongoClient) := do
  let err := env.mongoConnect uri
  emit (.mongoConnect uri err)
  match err with
  | some err => return .error err
  | none => return .ok ⟨uri⟩

/-- The function `connectRedis`: on a failed `PING` it returns the error and drops
`rdb` without closing it. -/
def connectRedis (env : Env) (address password : String) (db : Int) :
    Go (Except String RedisClient) := do
  let rdb : RedisClient := ⟨{ Addr := address, Password := password, DB := db }⟩
  emit (.redisNewClient rdb.opt)
  let err := env.redisPing rdb
  emit (.redisPing rdb err)
  match err with
  | some err => return .error err
  | none => return .ok rdb

/-- The function `pingPostgres`. -/
def pingPostgres (env : Env) (db : DB) : Go (Option String) := do
  let err := env.dbPing db
  emit (.dbPing db err)
  return err

/-- The function `pingMySQL`. -/
def pingMySQL (env : Env) (db : DB) : Go (Option String) := do
  let err := env.dbPing db
  emit (.dbPing db err)
  return err

/-- The function `pingMongoDB`. -/
def pingMongoDB (env : Env) (client : MongoClient) : Go (Option String) := do
  let err := env.mongoPing client
  emit (.mongoPing client err)
  return err

/-- The call `http.Error(w, error, code)` on the frame's writer. -/
def httpError (error : String) (code : Nat) : Go Unit :=
  modify fun f => { f with trace := f.trace ++ [.httpError error code], w := f.w.Error error code }

/-- The call `w.Header().Set(key, value)`. -/
def headerSet (key value : String) : Go Unit :=
  modify fun f => { f with trace := f.trace ++ [.headerSet key value], w := f.w.headerSet key value }

/-- The call `json.NewEncoder(w).Encode(v)`. -/
def jsonEncode (v : HealthCheckResponse) : Go Unit :=
  modify fun f => { f with trace := f.trace ++ [.jsonEncode v], w := f.w.Write (.json v) }

/-- The body of `healthCheckHandler`, statement by statement. The variable
`response` is threaded through the four blocks: each block yields the response
with its own field assigned. -/
def healthCheckHandlerBody (env : Env) (r : Request) : Go Unit := do
  if r.Method ≠ "POST" then
    httpError "Method not allowed" 405
  else
    emit (.jsonDecode r.Body)
    match Decode r.Body with
    | .error err =>
      httpError (Sprintf "Failed to decode request body: %v" [env.decodeErrorText err]) 400
    | .ok req =>
      let response := HealthCheckResponse.zero
      let postgres ← connectPostgres env req.PostgreSQL.User req.PostgreSQL.Password
        req.PostgreSQL.DBName req.PostgreSQL.Host req.PostgreSQL.Port req.PostgreSQL.SSLMode
      let response ←
        (match postgres with
        | .error err =>
          pure { response with PostgreSQL := Sprintf "Failed to connect to PostgreSQL: %v" [err] }
        | .ok postgresDB => do
          defer (.dbClose postgresDB)
          match ← pingPostgres env postgresDB with
          | some err =>
            pure { response with PostgreSQL := Sprintf "Failed to ping PostgreSQL: %v" [err] }
          | none => pure { response with PostgreSQL := "PostgreSQL is alive" })
      let mysql ← connectMySQL env req.MySQL.User req.MySQL.Password req.MySQL.DBName
        req.MySQL.Host req.MySQL.Port
      let response ←
        (match mysql with
        | .error err =>
          pure { response with MySQL := Sprintf "Failed to connect to MySQL: %v" [err] }
        | .ok mysqlDB => do
          defer (.dbClose mysqlDB)
          match ← pingMySQL env mysqlDB with
          | some err => pure { response with MySQL := Sprintf "Failed to ping MySQL: %v" [err] }
          | none => pure { response with MySQL := "MySQL is alive" })
      let mongo ← connectMongoDB env req.MongoDB.URI
      let response ←
        (match mongo with
        | .error err =>
          pure { response with MongoDB := Sprintf "Failed to connect to MongoDB: %v" [err] }
        | .ok mongoClient => do
          defer (.mongoDisconnect mongoClient)
          match ← pingMongoDB env mongoClient with
          | some err =>
            pure { response with MongoDB := Sprintf "Failed to ping MongoDB: %v" [err] }
          | none => pure { response with MongoDB := "MongoDB is alive" })
      let redis ← connectRedis env req.Redis.Address req.Redis.Password req.Redis.DB
      let response ←
        (match redis with
        | .error err =>
          pure { response with Redis := Sprintf "Failed to connect to Redis: %v" [err] }
        | .ok redisClient => do
          defer (.redisClose redisClient)
          pure { response with Redis := "Redis is alive" })
      headerSet "Content-Type" "application/json"
      jsonEncode response

/-- The return of the handler: the deferred calls run, the last deferred first. -/
def runDeferred : Go Unit :=
  modify fun f => { f with trace := f.trace ++ f.deferred, deferred := [] }

/-- The function `healthCheckHandler`: its body, then its deferred calls. -/
def healthCheckHandler (env : Env) (r : Request) : Go Unit := do
  healthCheckHandlerBody env r
  runDeferred

/-- The frame in which a call of `healthCheckHandler` on a fresh response writer
returns. -/
def serve (env : Env) (r : Request) : Frame :=
  ((healthCheckHandler env r).run Frame.init).2


/-! ## Observations on a run -/

/-- The four backends. -/
inductive Backend where
  | PostgreSQL
  | MySQL
  | MongoDB
  | Redis
deriving DecidableEq, Repr

/-- The name of a backend in the response strings. -/
def Backend.name : Backend → String
  | .PostgreSQL => "PostgreSQL"
  | .MySQL => "MySQL"
  | .MongoDB => "MongoDB"
  | .Redis => "Redis"

/-- The response field of a backend. -/
def HealthCheckResponse.field (resp : HealthCheckResponse) : Backend → String
  | .PostgreSQL => resp.PostgreSQL
  | .MySQL => resp.MySQL
  | .MongoDB => resp.MongoDB
  | .Redis => resp.Redis

/-- The JSON value `Encoder.Encode` writes for a response: an object with the four
members named by the struct tags, in the order of the fields. -/
def HealthCheckResponse.toJSON (resp : HealthCheckResponse) : JSON :=
  .obj [("postgresql", .str resp.PostgreSQL), ("mysql", .str resp.MySQL),
    ("mongodb", .str resp.MongoDB), ("redis", .str resp.Redis)]

/-- The sub-bundles of two requests for backend `b` are the same. -/
def sameSubBundle (b : Backend) (req1 req2 : HealthCheckRequest) : Prop :=
  match b with
  | .PostgreSQL => req1.PostgreSQL = req2.PostgreSQL
  | .MySQL => req1.MySQL = req2.MySQL
  | .MongoDB => req1.MongoDB = req2.MongoDB
  | .Redis => req1.Redis = req2.Redis

/-- The outcome of `e` when `e` is the call that constructs the client of `b`:
`sql.Open` with the driver of `b`, `mongo.Connect`, or `redis.NewClient` (which
returns no error). -/
def Effect.constructOf (b : Backend) : Effect → Option (Option String)
  | .sqlOpen driverName _ err =>
    match b with
    | .PostgreSQL => if driverName = "postgres" then some err else none
    | .MySQL => if driverName = "mysql" then some err else none
    | _ => none
  | .mongoConnect _ err => if b = .MongoDB then some err else none
  | .redisNewClient _ => if b = .Redis then some none else none
  | _ => none

/-- The outcome of `e` when `e` is the liveness ping of `b`. -/
def Effect.pingOf (b : Backend) : Effect → Option (Option String)
  | .dbPing db err =>
    match b with
    | .PostgreSQL => if db.driverName = "postgres" then some err else none
    | .MySQL => if db.driverName = "mysql" then some err else none
    | _ => none
  | .mongoPing _ err => if b = .MongoDB then some err else none
  | .redisPing _ err => if b = .Redis then some err else none
  | _ => none

/-- The outcome of the construction of the client of `b` in a trace: `none` when
the trace has no such call, `some none` when the call succeeded, `some (some err)`
when it returned the error `err`. -/
def constructOutcome (b : Backend) (trace : List Effect) : Option (Option String) :=
  trace.findSome? (Effect.constructOf b)

/-- The outcome of the liveness ping of `b` in a trace. -/
def pingOutcome (b : Backend) (trace : List Effect) : Option (Option String) :=
  trace.findSome? (Effect.pingOf b)

/-- The client an effect hands to the program, if any. -/
def Effect.opens : Effect → Option Client
  | .sqlOpen driverName dataSourceName none => some (.sql ⟨driverName, dataSourceName⟩)
  | .mongoConnect uri none => some (.mongo ⟨uri⟩)
  | .redisNewClient opt => some (.redis ⟨opt⟩)
  | _ => none

/-- The client an effect releases, if any: `Close` or `Disconnect`. -/
def Effect.releases : Effect → Option Client
  | .dbClose db => some (.sql db)
  | .mongoDisconnect c => some (.mongo c)
  | .redisClose c => some (.redis c)
  | _ => none

/-- Is the effect a release of a client. -/
def Effect.isRelease (e : Effect) : Bool := e.releases.isSome

/-- Is the effect part of emitting the response: setting a header, `http.Error`,
or encoding the JSON body. -/
def Effect.isEmit : Effect → Bool
  | .headerSet _ _ => true
  | .jsonEncode _ => true
  | .httpError _ _ => true
  | _ => false

/-- Is the effect the construction of a client (successful or not). -/
def Effect.isConstruct : Effect → Bool
  | .sqlOpen _ _ _ => true
  | .mongoConnect _ _ => true
  | .redisNewClient _ => true
  | _ => false

/-- The clients held after one more effect. -/
def holdStep (held : List Client) (e : Effect) : List Client :=
  match e.opens with
  | some c => held ++ [c]
  | none =>
    match e.releases with
    | some c => held.erase c
    | none => held

/-- The clients that a trace has opened and not released. -/
def openClients (trace : List Effect) : List Client :=
  trace.foldl holdStep []

/-- Every release in the trace comes before every effect that emits the response. -/
def ReleasesPrecedeResponse (trace : List Effect) : Prop :=
  ∀ pre e post, trace = pre ++ e :: post → e.isEmit = true → ∀ x ∈ post, x.isRelease = false

/-- Every release in the trace comes after every effect that emits the response. -/
def ReleasesFollowResponse (trace : List Effect) : Prop :=
  ∀ pre e post, trace = pre ++ e :: post → e.isEmit = true → ∀ x ∈ pre, x.isRelease = false

/-- The string `s` starts with `p`. -/
def StartsWith (p s : String) : Prop := ∃ rest, s = p ++ rest

/-- The string `"<B> is alive"`. -/
def aliveString (b : Backend) : String := b.name ++ " is alive"

/-- The prefix `"Failed to connect to <B>: "`. -/
def connectPrefix (b : Backend) : String := "Failed to connect to " ++ b.name ++ ": "

/-- The prefix `"Failed to ping <B>: "`. -/
def pingPrefix (b : Backend) : String := "Failed to ping " ++ b.name ++ ": "

/-- The response that was encoded into the body, when the body is exactly one
encoded response. -/
def ResponseWriter.encoded (w : ResponseWriter) : Option HealthCheckResponse :=
  match w.body with
  | [.json v] => some v
  | _ => none

/-- The string written to the response field of `b`, when a response was
encoded. -/
def fieldWritten (b : Backend) (f : Frame) : Option String :=
  f.w.encoded.map (fun resp => resp.field b)

/-! ### The blocks of the handler in closed form -/

/-- The outcome of one block of the handler: the string assigned to the response
field, the library calls the block makes and the call it defers, if any. -/
structure Probe where
  field : String
  calls : List Effect
  deferred : List Effect
deriving DecidableEq, Repr

/-- The PostgreSQL block (`main.go` lines 120-130) in closed form. -/
def probePostgres (env : Env) (p : PostgreSQLParams) : Probe :=
  let connStr := Sprintf "user=%s password=%s dbname=%s host=%s port=%s sslmode=%s"
    [p.User, p.Password, p.DBName, p.Host, p.Port, p.SSLMode]
  match env.sqlOpen "postgres" connStr with
  | some err =>
    ⟨Sprintf "Failed to connect to PostgreSQL: %v" [err],
      [.sqlOpen "postgres" connStr (some err)], []⟩
  | none =>
    match env.dbPing ⟨"postgres", connStr⟩ with
    | some err =>
      ⟨Sprintf "Failed to ping PostgreSQL: %v" [err],
        [.sqlOpen "postgres" connStr none, .dbPing ⟨"postgres", connStr⟩ (some err)],
        [.dbClose ⟨"postgres", connStr⟩]⟩
    | none =>
      ⟨"PostgreSQL is alive",
        [.sqlOpen "postgres" connStr none, .dbPing ⟨"postgres", connStr⟩ none],
        [.dbClose ⟨"postgres", connStr⟩]⟩

/-- The MySQL block (lines 132-142) in closed form. -/
def probeMySQL (env : Env) (p : MySQLParams) : Probe :=
  let dsn := Sprintf "%s:%s@tcp(%s:%s)/%s" [p.User, p.Password, p.Host, p.Port, p.DBName]
  match env.sqlOpen "mysql" dsn with
  | some err =>
    ⟨Sprintf "Failed to connect to MySQL: %v" [err], [.sqlOpen "mysql" dsn (some err)], []⟩
  | none =>
    match env.dbPing ⟨"mysql", dsn⟩ with
    | some err =>
      ⟨Sprintf "Failed to ping MySQL: %v" [err],
        [.sqlOpen "mysql" dsn none, .dbPing ⟨"mysql", dsn⟩ (some err)], [.dbClose ⟨"mysql", dsn⟩]⟩
    | none =>
      ⟨"MySQL is alive",
        [.sqlOpen "mysql" dsn none, .dbPing ⟨"mysql", dsn⟩ none], [.dbClose ⟨"mysql", dsn⟩]⟩

/-- The MongoDB block (lines 145-155) in closed form. -/
def probeMongoDB (env : Env) (p : MongoDBParams) : Probe :=
  match env.mongoConnect p.URI with
  | some err =>
    ⟨Sprintf "Failed to connect to MongoDB: %v" [err], [.mongoConnect p.URI (some err)], []⟩
  | none =>
    match env.mongoPing ⟨p.URI⟩ with
    | some err =>
      ⟨Sprintf "Failed to ping MongoDB: %v" [err],
        [.mongoConnect p.URI none, .mongoPing ⟨p.URI⟩ (some err)], [.mongoDisconnect ⟨p.URI⟩]⟩
    | none =>
      ⟨"MongoDB is alive",
        [.mongoConnect p.URI none, .mongoPing ⟨p.URI⟩ none], [.mongoDisconnect ⟨p.URI⟩]⟩

/-- The Redis block (lines 157-163, with `connectRedis`) in closed form. -/
def probeRedis (env : Env) (p : RedisParams) : Probe :=
  let rdb : RedisClient := ⟨⟨p.Address, p.Password, p.DB⟩⟩
  match env.redisPing rdb with
  | some err =>
    ⟨Sprintf "Failed to connect to Redis: %v" [err],
      [.redisNewClient rdb.opt, .redisPing rdb (some err)], []⟩
  | none =>
    ⟨"Redis is alive", [.redisNewClient rdb.opt, .redisPing rdb none], [.redisClose rdb]⟩

/-- The block of backend `b` in closed form. -/
def probe (env : Env) (req : HealthCheckRequest) : Backend → Probe
  | .PostgreSQL => probePostgres env req.PostgreSQL
  | .MySQL => probeMySQL env req.MySQL
  | .MongoDB => probeMongoDB env req.MongoDB
  | .Redis => probeRedis env req.Redis

/-- The response a decoded request is answered with. -/
def responseOf (env : Env) (req : HealthCheckRequest) : HealthCheckResponse :=
  { PostgreSQL := (probePostgres env req.PostgreSQL).field
    MySQL := (probeMySQL env req.MySQL).field
    MongoDB := (probeMongoDB env req.MongoDB).field
    Redis := (probeRedis env req.Redis).field }

/-- Agreement on a sub-bundle is decidable. -/
instance instDecidableSameSubBundle (b : Backend) (req1 req2 : HealthCheckRequest) :
    Decidable (sameSubBundle b req1 req2) :=
  match b with
  | .PostgreSQL => inferInstanceAs (Decidable (req1.PostgreSQL = req2.PostgreSQL))
  | .MySQL => inferInstanceAs (Decidable (req1.MySQL = req2.MySQL))
  | .MongoDB => inferInstanceAs (Decidable (req1.MongoDB = req2.MongoDB))
  | .Redis => inferInstanceAs (Decidable (req1.Redis = req2.Redis))

/-- Is the value `null`. -/
def JSON.isNull : JSON → Bool
  | .null => true
  | _ => false

/-- Is the value an object or `null`: the two top-level values that a struct
accepts. -/
def JSON.isObjectOrNull : JSON → Bool
  | .obj _ => true
  | .null => true
  | _ => false

/-- What adequacy of the bound says of one scanner result: it is there, and a
value that is read leaves less input than there was. -/
def Adequate {α : Type} (cs : List Char) (r : Option (Scan α)) : Prop :=
  ∃ res, r = some res ∧ ∀ v rest, res = .ok (v, rest) → rest.length < cs.length

/-- The body holds no complete JSON value: it is empty, truncated or malformed. -/
def malformed (body : String) : Bool :=
  match readValue body with
  | .error _ => true
  | .ok _ => false

/-- The first JSON value of the body is an array, a string, a number or a
boolean. -/
def wrongTopLevelType (body : String) : Bool :=
  match readValue body with
  | .error _ => false
  | .ok v => !v.isObjectOrNull

/-! ### Example inputs -/

/-- The request of `TestHealthCheckHandler`. -/
def testPayload : HealthCheckRequest :=
  { PostgreSQL := ⟨"postgres", "password", "query-bridge", "localhost", "5432", "disable"⟩
    MySQL := ⟨"username", "password", "mydb", "localhost", "3306"⟩
    MongoDB := ⟨"mongodb://localhost:27017"⟩
    Redis := ⟨"localhost:6379", "", 0⟩ }

/-- The body `json.Marshal(payload)` of `TestHealthCheckHandler`. -/
def testBody : String :=
  "\x7b\"postgresql\":\x7b\"user\":\"postgres\",\"password\":\"password\",\"dbname\":\"query-bridge\",\"host\":\"localhost\",\"port\":\"5432\",\"sslmode\":\"disable\"\x7d,\"mysql\":\x7b\"user\":\"username\",\"password\":\"password\",\"dbname\":\"mydb\",\"host\":\"localhost\",\"port\":\"3306\"\x7d,\"mongodb\":\x7b\"uri\":\"mongodb://localhost:27017\"\x7d,\"redis\":\x7b\"address\":\"localhost:6379\",\"password\":\"\",\"db\":0\x7d\x7d"

/-- The request `POST /health` of `TestHealthCheckHandler`. -/
def testRequest : Request := ⟨"POST", testBody⟩

/-- A text for each decoding error, for the example environments. -/
def errorText : DecodeError → String
  | .EOF => "EOF"
  | .ErrUnexpectedEOF => "unexpected EOF"
  | .SyntaxError c context => "invalid character '" ++ String.singleton c ++ "' " ++ context
  | .UnmarshalTypeError value _ => "json: cannot unmarshal " ++ value ++ " into Go value"

/-- All four backends are reachable. -/
def allUp : Env :=
  { sqlOpen := fun _ _ => none
    dbPing := fun _ => none
    mongoConnect := fun _ => none
    mongoPing := fun _ => none
    redisPing := fun _ => none
    decodeErrorText := errorText }

/-- Redis refuses the connection, the other backends are reachable. -/
def redisDown : Env :=
  { allUp with redisPing := fun _ => some "dial tcp 127.0.0.1:6379: connect: connection refused" }

/-- No backend is reachable: the SQL handles and the MongoDB client are made, and
every ping fails. -/
def allDown : Env :=
  { sqlOpen := fun _ _ => none
    dbPing := fun _ => some "connection refused"
    mongoConnect := fun _ => none
    mongoPing := fun _ => some "server selection error"
    redisPing := fun _ => some "connection refused"
    decodeErrorText := errorText }

/-- Every construction fails. -/
def noDriver : Env :=
  { sqlOpen := fun _ _ => some "unknown driver"
    dbPing := fun _ => none
    mongoConnect := fun _ => some "error parsing uri"
    mongoPing := fun _ => none
    redisPing := fun _ => some "connection refused"
    decodeErrorText := errorText }

/-- A `POST` whose body is the empty object: every sub-bundle is omitted. -/
def emptyObjectRequest : Request := ⟨"POST", "\x7b\x7d"⟩

/-- A `POST` whose body carries the Redis sub-bundle of the test only. -/
def redisOnlyRequest : Request :=
  ⟨"POST", "\x7b\"redis\":\x7b\"address\":\"localhost:6379\",\"password\":\"\",\"db\":0\x7d\x7d"⟩

/-- The request `redisOnlyRequest` decodes to. -/
def redisOnlyPayload : HealthCheckRequest :=
  { HealthCheckRequest.zero with Redis := ⟨"localhost:6379", "", 0⟩ }

/-- A `GET` with the body of the test. -/
def getRequest : Request := ⟨"GET", testBody⟩

/-- Redis is reachable, the other three backends are not. -/
def onlyRedisUp : Env :=
  { sqlOpen := fun driverName _ => if driverName = "mysql" then some "invalid DSN" else none
    dbPing := fun _ => some "dial tcp 127.0.0.1:5432: connect: connection refused"
    mongoConnect := fun _ => some "error parsing uri: scheme must be \"mongodb\""
    mongoPing := fun _ => none
    redisPing := fun _ => none
    decodeErrorText := errorText }

/-- Equality of `Except` values is decidable when it is for both components. -/
instance instDecidableEqExcept {ε α : Type} [DecidableEq ε] [DecidableEq α] :
    DecidableEq (Except ε α)
  | .ok a, .ok b =>
    if h : a = b then isTrue (by rw [h]) else isFalse (by intro h2; cases h2; exact h rfl)
  | .error a, .error b =>
    if h : a = b then isTrue (by rw [h]) else isFalse (by intro h2; cases h2; exact h rfl)
  | .ok _, .error _ => isFalse (by intro h; cases h)
  | .error _, .ok _ => isFalse (by intro h; cases h)

/-! ## Lemmas -/

/-! ### The scanners never use up their bound -/

theorem skipSpace_length_le (cs : List Char) : (skipSpace cs).length ≤ cs.length := by
  induction cs with
  | nil => simp [skipSpace]
  | cons c cs ih =>
    unfold skipSpace
    split
    · simp; omega
    · simp

theorem skipSpace_cons_length (cs : List Char) (c : Char) (rest : List Char)
    (h : skipSpace cs = c :: rest) : rest.length < cs.length := by
  have := skipSpace_length_le cs
  rw [h] at this
  simp at this
  omega

theorem takeDigits_length_le (cs : List Char) : (takeDigits cs).2.length ≤ cs.length := by
  induction cs with
  | nil => simp [takeDigits]
  | cons c cs ih =>
    unfold takeDigits
    split
    · simp; omega
    · simp

theorem scanHex4_length (cs : List Char) (n : Nat) (rest : List Char)
    (h : scanHex4 cs = .ok (n, rest)) : rest.length + 4 = cs.length := by
  unfold scanHex4 at h
  split at h
  · repeat' split at h
    all_goals (cases h <;> simp)
  · split at h <;> cases h

theorem scanExpDigits_length (acc cs lit rest : List Char)
    (h : scanExpDigits acc cs = .ok (lit, rest)) : rest.length < cs.length := by
  unfold scanExpDigits at h
  split at h
  · cases h
  · rename_i d tl
    split at h
    · injection h with h
      injection h with h1 h2
      subst h2
      have := takeDigits_length_le tl
      simp
      omega
    · cases h

theorem scanExp_length (acc cs lit rest : List Char)
    (h : scanExp acc cs = .ok (lit, rest)) : rest.length < cs.length := by
  unfold scanExp at h
  split at h
  · cases h
  · rename_i c tl
    split at h
    · have := scanExpDigits_length _ _ _ _ h
      simp
      omega
    · exact scanExpDigits_length _ _ _ _ h

theorem scanFracExp_length (acc cs lit rest : List Char)
    (h : scanFracExp acc cs = .ok (lit, rest)) : rest.length ≤ cs.length := by
  unfold scanFracExp at h
  split at h
  · injection h with h
    injection h with h1 h2
    subst h2
    simp
  · rename_i c tl
    split at h
    · split at h
      · cases h
      · rename_i d tl1
        split at h
        · have hd := takeDigits_length_le tl1
          simp only at h
          split at h
          · injection h with h
            injection h with h1 h2
            subst h2
            simp
          · rename_i e rest1 heq
            rw [heq] at hd
            simp at hd
            split at h
            · have := scanExp_length _ _ _ _ h
              simp
              omega
            · injection h with h
              injection h with h1 h2
              subst h2
              simp
              omega
        · cases h
    · split at h
      · have := scanExp_length _ _ _ _ h
        simp
        omega
      · injection h with h
        injection h with h1 h2
        subst h2
        simp

theorem scanInt_length (acc cs lit rest : List Char)
    (h : scanInt acc cs = .ok (lit, rest)) : rest.length < cs.length := by
  unfold scanInt at h
  split at h
  · cases h
  · rename_i c tl
    split at h
    · have := scanFracExp_length _ _ _ _ h
      simp
      omega
    · split at h
      · have hd := takeDigits_length_le tl
        have := scanFracExp_length _ _ _ _ h
        simp
        omega
      · cases h

theorem scanLiteral_length (name : String) (expected cs : List Char) (rest : List Char)
    (h : scanLiteral name expected cs = .ok ((), rest)) : rest.length ≤ cs.length := by
  induction expected generalizing cs with
  | nil =>
    unfold scanLiteral at h
    injection h with h
    injection h with h1 h2
    subst h2
    exact Nat.le_refl _
  | cons e es ih =>
    cases cs with
    | nil =>
      unfold scanLiteral at h
      cases h
    | cons c tl =>
      unfold scanLiteral at h
      split at h
      · have := ih tl h
        simp
        omega
      · cases h

theorem scanLowSurrogate_length (rr : Nat) (cs : List Char) (ch : Char) (rest : List Char)
    (h : scanLowSurrogate rr cs = some (ch, rest)) : rest.length < cs.length := by
  unfold scanLowSurrogate at h
  split at h
  · split at h
    · split at h
      · dsimp only at h
        split at h
        · injection h with h
          injection h with h1 h2
          subst h2
          simp only [List.length_cons]
          omega
        · cases h
      · cases h
    · cases h
  · cases h

theorem scanEscape_length (cs : List Char) (ch : Char) (rest : List Char)
    (h : scanEscape cs = .ok (ch, rest)) : rest.length < cs.length := by
  cases cs with
  | nil => unfold scanEscape at h; cases h
  | cons e tl =>
    have done : ∀ (c2 : Char), (Except.ok (c2, tl) : Scan Char) = .ok (ch, rest) →
        rest.length < (e :: tl).length := by
      intro c2 h2
      injection h2 with h2
      injection h2 with h3 h4
      subst h4
      simp only [List.length_cons]
      omega
    rw [scanEscape] at h
    split at h
    · exact done _ h
    split at h
    · exact done _ h
    split at h
    · exact done _ h
    split at h
    · exact done _ h
    split at h
    · exact done _ h
    split at h
    · exact done _ h
    split at h
    · split at h
      · cases h
      · rename_i rr rest1 hx
        have h1 := scanHex4_length _ _ _ hx
        split at h
        · split at h
          · rename_i ch2 rest2 hs
            have h2 := scanLowSurrogate_length _ _ _ _ hs
            injection h with h
            injection h with h3 h4
            subst h4
            simp only [List.length_cons]
            omega
          · injection h with h
            injection h with h3 h4
            subst h4
            simp only [List.length_cons]
            omega
        · injection h with h
          injection h with h3 h4
          subst h4
          simp only [List.length_cons]
          omega
    · cases h

/-- The bound of `scanString` is never used up when it exceeds the length of the
input, and a string that is read leaves less input than there was. -/
theorem scanString_fuel (fuel : Nat) : ∀ (acc cs : List Char), cs.length < fuel →
    ∃ res, scanString fuel acc cs = some res
      ∧ ∀ s rest, res = .ok (s, rest) → rest.length < cs.length := by
  induction fuel with
  | zero => intro acc cs h; omega
  | succ fuel ih =>
    intro acc cs h
    cases cs with
    | nil =>
      exact ⟨_, by unfold scanString; rfl, by intro s rest h2; cases h2⟩
    | cons c tl =>
      simp only [List.length_cons] at h
      have step : ∀ (acc2 cs2 : List Char), cs2.length ≤ tl.length →
          ∃ res, scanString fuel acc2 cs2 = some res
            ∧ ∀ s rest, res = .ok (s, rest) → rest.length < (c :: tl).length := by
        intro acc2 cs2 hlen
        obtain ⟨res, hres, hrest⟩ := ih acc2 cs2 (by omega)
        refine ⟨res, hres, ?_⟩
        intro s rest h2
        have := hrest s rest h2
        simp only [List.length_cons]
        omega
      rw [scanString]
      by_cases hq : c = '"'
      · rw [if_pos hq]
        refine ⟨_, rfl, ?_⟩
        intro s rest h2
        injection h2 with h2
        injection h2 with h3 h4
        subst h4
        simp only [List.length_cons]
        omega
      rw [if_neg hq]
      by_cases hb : c = '\\'
      · rw [if_pos hb]
        cases hesc : scanEscape tl with
        | error err => exact ⟨_, rfl, by intro s rest h2; cases h2⟩
        | ok p =>
          obtain ⟨ch, rest⟩ := p
          have := scanEscape_length _ _ _ hesc
          apply step
          omega
      rw [if_neg hb]
      by_cases hc : c.toNat < 0x20
      · rw [if_pos hc]
        exact ⟨_, rfl, by intro s rest h2; cases h2⟩
      · rw [if_neg hc]
        apply step; exact Nat.le_refl _


theorem adequate_error {α : Type} (cs : List Char) (e : DecodeError) :
    Adequate (α := α) cs (some (.error e)) :=
  ⟨_, rfl, by intro v rest h; cases h⟩

theorem adequate_ok {α : Type} (cs : List Char) (v : α) (rest : List Char)
    (h : rest.length < cs.length) : Adequate cs (some (.ok (v, rest))) :=
  ⟨_, rfl, by
    intro v2 rest2 h2
    injection h2 with h2
    injection h2 with h3 h4
    subst h4
    exact h⟩

theorem adequate_mono {α : Type} (cs cs2 : List Char) (r : Option (Scan α))
    (h : Adequate cs2 r) (hle : cs2.length ≤ cs.length) : Adequate cs r := by
  obtain ⟨res, hres, hrest⟩ := h
  exact ⟨res, hres, fun v rest h2 => Nat.lt_of_lt_of_le (hrest v rest h2) hle⟩

theorem scanValue_step (fuel : Nat)
    (ihE : ∀ depth acc cs, 2 * cs.length + 2 ≤ fuel → Adequate cs (scanElems fuel depth acc cs))
    (ihM : ∀ depth acc cs, 2 * cs.length + 2 ≤ fuel → Adequate cs (scanMembers fuel depth acc cs))
    (depth : Nat) (cs : List Char) (h : 2 * cs.length + 1 ≤ fuel + 1) :
    Adequate cs (scanValue (fuel + 1) depth cs) := by
  rw [scanValue]
  split
  · exact adequate_error _ _
  · rename_i c rest hs
    have hrest := skipSpace_cons_length _ _ _ hs
    split
    · split
      · split
        · exact adequate_error _ _
        · rename_i c1 rest1 hs1
          have hrest1 := skipSpace_cons_length _ _ _ hs1
          split
          · exact adequate_ok _ _ _ (by omega)
          · obtain ⟨res, hres, hlen⟩ := ihM (depth + 1) [] rest (by omega)
            rw [hres]
            cases res with
            | error e => exact adequate_error _ _
            | ok p =>
              obtain ⟨ms, rest2⟩ := p
              have := hlen ms rest2 rfl
              exact adequate_ok _ _ _ (by omega)
      · exact adequate_error _ _
    split
    · split
      · split
        · exact adequate_error _ _
        · rename_i c1 rest1 hs1
          have hrest1 := skipSpace_cons_length _ _ _ hs1
          split
          · exact adequate_ok _ _ _ (by omega)
          · obtain ⟨res, hres, hlen⟩ := ihE (depth + 1) [] rest (by omega)
            rw [hres]
            cases res with
            | error e => exact adequate_error _ _
            | ok p =>
              obtain ⟨vs, rest2⟩ := p
              have := hlen vs rest2 rfl
              exact adequate_ok _ _ _ (by omega)
      · exact adequate_error _ _
    split
    · obtain ⟨res, hres, hlen⟩ := scanString_fuel (rest.length + 1) [] rest (by omega)
      rw [hres]
      cases res with
      | error e => exact adequate_error _ _
      | ok p =>
        obtain ⟨str, rest2⟩ := p
        have := hlen str rest2 rfl
        exact adequate_ok _ _ _ (by omega)
    split
    · split
      · exact adequate_error _ _
      · rename_i lit rest1 hi
        have := scanInt_length _ _ _ _ hi
        exact adequate_ok _ _ _ (by omega)
    split
    · split
      · exact adequate_error _ _
      · rename_i lit rest1 hi
        have := scanInt_length _ _ _ _ hi
        simp only [List.length_cons] at this
        exact adequate_ok _ _ _ (by omega)
    split
    · split
      · exact adequate_error _ _
      · rename_i u rest1 hl
        have := scanLiteral_length _ _ _ _ hl
        exact adequate_ok _ _ _ (by omega)
    split
    · split
      · exact adequate_error _ _
      · rename_i u rest1 hl
        have := scanLiteral_length _ _ _ _ hl
        exact adequate_ok _ _ _ (by omega)
    split
    · split
      · exact adequate_error _ _
      · rename_i u rest1 hl
        have := scanLiteral_length _ _ _ _ hl
        exact adequate_ok _ _ _ (by omega)
    · exact adequate_error _ _

theorem scanElems_step (fuel : Nat)
    (ihV : ∀ depth cs, 2 * cs.length + 1 ≤ fuel → Adequate cs (scanValue fuel depth cs))
    (ihE : ∀ depth acc cs, 2 * cs.length + 2 ≤ fuel → Adequate cs (scanElems fuel depth acc cs))
    (depth : Nat) (acc : List JSON) (cs : List Char) (h : 2 * cs.length + 2 ≤ fuel + 1) :
    Adequate cs (scanElems (fuel + 1) depth acc cs) := by
  rw [scanElems]
  obtain ⟨res, hres, hlen⟩ := ihV depth cs (by omega)
  rw [hres]
  cases res with
  | error e => exact adequate_error _ _
  | ok p =>
    obtain ⟨v, rest⟩ := p
    have hr := hlen v rest rfl
    dsimp only
    split
    · exact adequate_error _ _
    · rename_i c rest1 hs
      have hrest1 := skipSpace_cons_length _ _ _ hs
      split
      · exact adequate_mono _ _ _ (ihE depth (v :: acc) rest1 (by omega)) (by omega)
      · split
        · exact adequate_ok _ _ _ (by omega)
        · exact adequate_error _ _

theorem scanMembers_step (fuel : Nat)
    (ihV : ∀ depth cs, 2 * cs.length + 1 ≤ fuel → Adequate cs (scanValue fuel depth cs))
    (ihM : ∀ depth acc cs, 2 * cs.length + 2 ≤ fuel → Adequate cs (scanMembers fuel depth acc cs))
    (depth : Nat) (acc : List (String × JSON)) (cs : List Char)
    (h : 2 * cs.length + 2 ≤ fuel + 1) :
    Adequate cs (scanMembers (fuel + 1) depth acc cs) := by
  rw [scanMembers]
  split
  · exact adequate_error _ _
  · rename_i q rest hs
    have hrest := skipSpace_cons_length _ _ _ hs
    split
    · obtain ⟨res, hres, hlen⟩ := scanString_fuel (rest.length + 1) [] rest (by omega)
      rw [hres]
      cases res with
      | error e => exact adequate_error _ _
      | ok p =>
        obtain ⟨key, rest1⟩ := p
        have hr1 := hlen key rest1 rfl
        dsimp only
        split
        · exact adequate_error _ _
        · rename_i colon rest2 hs2
          have hrest2 := skipSpace_cons_length _ _ _ hs2
          split
          · obtain ⟨res2, hres2, hlen2⟩ := ihV depth rest2 (by omega)
            rw [hres2]
            cases res2 with
            | error e => exact adequate_error _ _
            | ok p2 =>
              obtain ⟨v, rest3⟩ := p2
              have hr3 := hlen2 v rest3 rfl
              dsimp only
              split
              · exact adequate_error _ _
              · rename_i c rest4 hs4
                have hrest4 := skipSpace_cons_length _ _ _ hs4
                split
                · exact adequate_mono _ _ _ (ihM depth ((key, v) :: acc) rest4 (by omega))
                    (by omega)
                · split
                  · exact adequate_ok _ _ _ (by omega)
                  · exact adequate_error _ _
          · exact adequate_error _ _
    · exact adequate_error _ _

/-- The bound of the three scanners is never used up when it is at least twice the
length of the input plus one (plus two inside an array or an object), and a value
that is read leaves less input than there was. -/
theorem scan_fuel (fuel : Nat) :
    (∀ depth cs, 2 * cs.length + 1 ≤ fuel → Adequate cs (scanValue fuel depth cs))
    ∧ (∀ depth acc cs, 2 * cs.length + 2 ≤ fuel → Adequate cs (scanElems fuel depth acc cs))
    ∧ (∀ depth acc cs, 2 * cs.length + 2 ≤ fuel →
        Adequate cs (scanMembers fuel depth acc cs)) := by
  induction fuel with
  | zero =>
    refine ⟨?_, ?_, ?_⟩ <;> intros <;> omega
  | succ fuel ih =>
    obtain ⟨ihV, ihE, ihM⟩ := ih
    exact ⟨scanValue_step fuel ihE ihM, scanElems_step fuel ihV ihE,
      scanMembers_step fuel ihV ihM⟩

/-- The value scanner never runs out of its bound in `readValue`: for every body
the scan ends with a value or with one of Go's errors. -/
theorem readValue_fuel (body : String) :
    scanValue (2 * (skipSpace body.data).length + 1) 0 (skipSpace body.data) ≠ none := by
  obtain ⟨res, hres, _⟩ := (scan_fuel _).1 0 (skipSpace body.data) (Nat.le_refl _)
  rw [hres]
  exact Option.some_ne_none _


/-! ### Decoding and formatting -/

set_option maxRecDepth 100000 in
/-- The body of `TestHealthCheckHandler` decodes to its payload. -/
theorem decode_testBody : Decode testBody = .ok testPayload := by decide

/-- The empty object decodes to the zero-valued request: every sub-bundle may be
omitted. -/
theorem decode_empty_object : Decode "\x7b\x7d" = .ok HealthCheckRequest.zero := by decide

/-- The body `null` decodes, and leaves the request zero-valued. -/
theorem decode_null : Decode "null" = .ok HealthCheckRequest.zero := by decide

/-- The format of `connectPostgres`, evaluated. -/
theorem Sprintf_connStr (user password dbname host port sslmode : String) :
    Sprintf "user=%s password=%s dbname=%s host=%s port=%s sslmode=%s"
      [user, password, dbname, host, port, sslmode]
    = "user=" ++ user ++ " password=" ++ password ++ " dbname=" ++ dbname ++ " host=" ++ host
      ++ " port=" ++ port ++ " sslmode=" ++ sslmode := by
  apply String.ext
  simp [Sprintf, sprintfChars]

/-- The four connect-failure formats, evaluated. -/
theorem Sprintf_connect (err : String) :
    (Sprintf "Failed to connect to PostgreSQL: %v" [err] = "Failed to connect to PostgreSQL: " ++ err)
    ∧ (Sprintf "Failed to connect to MySQL: %v" [err] = "Failed to connect to MySQL: " ++ err)
    ∧ (Sprintf "Failed to connect to MongoDB: %v" [err] = "Failed to connect to MongoDB: " ++ err)
    ∧ (Sprintf "Failed to connect to Redis: %v" [err] = "Failed to connect to Redis: " ++ err) := by
  refine ⟨?_, ?_, ?_, ?_⟩ <;> apply String.ext <;> simp [Sprintf, sprintfChars]

/-- The three ping-failure formats, evaluated. -/
theorem Sprintf_ping (err : String) :
    (Sprintf "Failed to ping PostgreSQL: %v" [err] = "Failed to ping PostgreSQL: " ++ err)
    ∧ (Sprintf "Failed to ping MySQL: %v" [err] = "Failed to ping MySQL: " ++ err)
    ∧ (Sprintf "Failed to ping MongoDB: %v" [err] = "Failed to ping MongoDB: " ++ err) := by
  refine ⟨?_, ?_, ?_⟩ <;> apply String.ext <;> simp [Sprintf, sprintfChars]

/-- The decode-failure format, evaluated. -/
theorem Sprintf_decode (err : String) :
    Sprintf "Failed to decode request body: %v" [err] = "Failed to decode request body: " ++ err := by
  apply String.ext
  simp [Sprintf, sprintfChars]


/-- The writer after `http.Error(w, error, code)` on a fresh response. -/
theorem error_fresh (error : String) (code : Nat) :
    ResponseWriter.Error ⟨[], none, []⟩ error code =
      { header := [("X-Content-Type-Options", "nosniff"),
          ("Content-Type", "text/plain; charset=utf-8")]
        wroteHeader := some (code, [("X-Content-Type-Options", "nosniff"),
          ("Content-Type", "text/plain; charset=utf-8")])
        body := [.line error] } := by
  simp [ResponseWriter.Error, ResponseWriter.headerSet, ResponseWriter.Write,
    ResponseWriter.WriteHeader]

/-- The run on a request that is not a POST. -/
theorem serve_not_post (env : Env) (r : Request) (hm : r.Method ≠ "POST") :
    serve env r =
      { trace := [.httpError "Method not allowed" 405]
        deferred := []
        w := ResponseWriter.Error ⟨[], none, []⟩ "Method not allowed" 405 } := by
  simp only [serve, healthCheckHandler, healthCheckHandlerBody, StateT.run, bind, StateT.bind,
    httpError, modify, modifyGet, MonadStateOf.modifyGet, StateT.modifyGet, runDeferred, hm,
    ne_eq, not_false_eq_true, ite_true, if_true, Frame.init, List.nil_append, List.append_nil]
  rfl

/-- The run on a POST whose body does not decode. -/
theorem serve_decode_error (env : Env) (r : Request) (err : DecodeError)
    (hm : r.Method = "POST") (hd : Decode r.Body = .error err) :
    serve env r =
      { trace := [.jsonDecode r.Body,
          .httpError ("Failed to decode request body: " ++ env.decodeErrorText err) 400]
        deferred := []
        w := ResponseWriter.Error ⟨[], none, []⟩
          ("Failed to decode request body: " ++ env.decodeErrorText err) 400 } := by
  simp only [serve, healthCheckHandler, healthCheckHandlerBody, StateT.run, bind, StateT.bind,
    httpError, emit, modify, modifyGet, MonadStateOf.modifyGet, StateT.modifyGet, runDeferred, hm,
    hd, ne_eq, not_true_eq_false, ite_false, if_false, Frame.init, List.nil_append,
    List.append_nil, List.cons_append, Sprintf_decode]
  rfl

set_option maxHeartbeats 1000000 in
/-- The run on a POST whose body decodes: the calls of the four blocks in program
order, the response, and then the deferred calls, the last deferred first. -/
theorem serve_decoded (env : Env) (r : Request) (req : HealthCheckRequest)
    (hm : r.Method = "POST") (hd : Decode r.Body = .ok req) :
    serve env r =
      { trace := .jsonDecode r.Body ::
          ((probePostgres env req.PostgreSQL).calls ++ (probeMySQL env req.MySQL).calls ++
            (probeMongoDB env req.MongoDB).calls ++ (probeRedis env req.Redis).calls ++
            [.headerSet "Content-Type" "application/json", .jsonEncode (responseOf env req)] ++
            ((probeRedis env req.Redis).deferred ++ (probeMongoDB env req.MongoDB).deferred ++
              (probeMySQL env req.MySQL).deferred ++ (probePostgres env req.PostgreSQL).deferred))
        deferred := []
        w := { header := [("Content-Type", "application/json")]
               wroteHeader := some (200, [("Content-Type", "application/json")])
               body := [.json (responseOf env req)] } } := by
  cases h1 : env.sqlOpen "postgres" (Sprintf "user=%s password=%s dbname=%s host=%s port=%s sslmode=%s"
    [req.PostgreSQL.User, req.PostgreSQL.Password, req.PostgreSQL.DBName, req.PostgreSQL.Host,
      req.PostgreSQL.Port, req.PostgreSQL.SSLMode]) <;>
  cases h2 : env.dbPing ⟨"postgres", Sprintf "user=%s password=%s dbname=%s host=%s port=%s sslmode=%s"
    [req.PostgreSQL.User, req.PostgreSQL.Password, req.PostgreSQL.DBName, req.PostgreSQL.Host,
      req.PostgreSQL.Port, req.PostgreSQL.SSLMode]⟩ <;>
  cases h3 : env.sqlOpen "mysql" (Sprintf "%s:%s@tcp(%s:%s)/%s"
    [req.MySQL.User, req.MySQL.Password, req.MySQL.Host, req.MySQL.Port, req.MySQL.DBName]) <;>
  cases h4 : env.dbPing ⟨"mysql", Sprintf "%s:%s@tcp(%s:%s)/%s"
    [req.MySQL.User, req.MySQL.Password, req.MySQL.Host, req.MySQL.Port, req.MySQL.DBName]⟩ <;>
  cases h5 : env.mongoConnect req.MongoDB.URI <;>
  cases h6 : env.mongoPing ⟨req.MongoDB.URI⟩ <;>
  cases h7 : env.redisPing ⟨⟨req.Redis.Address, req.Redis.Password, req.Redis.DB⟩⟩ <;>
  simp only [serve, healthCheckHandler, healthCheckHandlerBody, hm, hd, StateT.run, bind,
    StateT.bind, emit, defer, modify, modifyGet, MonadStateOf.modifyGet, StateT.modifyGet, pure,
    StateT.pure, connectPostgres, connectMySQL, connectMongoDB, connectRedis, pingPostgres,
    pingMySQL, pingMongoDB, headerSet, jsonEncode, runDeferred, responseOf, probePostgres,
    probeMySQL, probeMongoDB, probeRedis, h1, h2, h3, h4, h5, h6, h7, Frame.init,
    ResponseWriter.headerSet, ResponseWriter.Write, ResponseWriter.WriteHeader,
    HealthCheckResponse.zero, ne_eq, not_true_eq_false, ite_false, if_false, List.nil_append,
    List.append_nil, List.cons_append, List.append_assoc, List.filter_nil]

/-! ### The outcomes recorded in the trace of a decoded request -/

/-- The construction recorded in two traces in a row is the first one found. -/
theorem constructOutcome_append (b : Backend) (l1 l2 : List Effect) :
    constructOutcome b (l1 ++ l2) = (constructOutcome b l1).or (constructOutcome b l2) := by
  simp [constructOutcome, List.findSome?_append]

/-- The ping recorded in two traces in a row is the first one found. -/
theorem pingOutcome_append (b : Backend) (l1 l2 : List Effect) :
    pingOutcome b (l1 ++ l2) = (pingOutcome b l1).or (pingOutcome b l2) := by
  simp [pingOutcome, List.findSome?_append]

/-- The construction recorded in the calls of the block of `b2` for backend `b`:
the block's own, and none for another backend. -/
theorem constructOutcome_calls (env : Env) (req : HealthCheckRequest) (b b2 : Backend)
    (h : b ≠ b2) : constructOutcome b (probe env req b2).calls = none := by
  cases b <;> cases b2 <;> first
    | exact absurd rfl h
    | (simp only [probe, probePostgres, probeMySQL, probeMongoDB, probeRedis]
       (repeat' split) <;> simp [constructOutcome, Effect.constructOf])

/-- The calls of the block of `b2` hold no ping of another backend. -/
theorem pingOutcome_calls (env : Env) (req : HealthCheckRequest) (b b2 : Backend)
    (h : b ≠ b2) : pingOutcome b (probe env req b2).calls = none := by
  cases b <;> cases b2 <;> first
    | exact absurd rfl h
    | (simp only [probe, probePostgres, probeMySQL, probeMongoDB, probeRedis]
       (repeat' split) <;> simp [pingOutcome, Effect.pingOf])

/-- The deferred calls of a block construct nothing. -/
theorem constructOutcome_deferred (env : Env) (req : HealthCheckRequest) (b b2 : Backend) :
    constructOutcome b (probe env req b2).deferred = none := by
  cases b <;> cases b2 <;> simp only [probe, probePostgres, probeMySQL, probeMongoDB, probeRedis]
    <;> (repeat' split) <;> simp [constructOutcome, Effect.constructOf]

/-- The deferred calls of a block ping nothing. -/
theorem pingOutcome_deferred (env : Env) (req : HealthCheckRequest) (b b2 : Backend) :
    pingOutcome b (probe env req b2).deferred = none := by
  cases b <;> cases b2 <;> simp only [probe, probePostgres, probeMySQL, probeMongoDB, probeRedis]
    <;> (repeat' split) <;> simp [pingOutcome, Effect.pingOf]

/-- The outcomes recorded in the trace of a decoded request are those recorded in
the calls of the backend's own block. -/
theorem outcomes_decoded (env : Env) (r : Request) (req : HealthCheckRequest) (b : Backend)
    (hm : r.Method = "POST") (hd : Decode r.Body = .ok req) :
    constructOutcome b (serve env r).trace = constructOutcome b (probe env req b).calls
    ∧ pingOutcome b (serve env r).trace = pingOutcome b (probe env req b).calls := by
  rw [serve_decoded env r req hm hd]
  have hc := constructOutcome_calls env req b
  have hp := pingOutcome_calls env req b
  have hcd := constructOutcome_deferred env req b
  have hpd := pingOutcome_deferred env req b
  have c1 : ∀ l, constructOutcome b (Effect.jsonDecode r.Body :: l) = constructOutcome b l := by
    intro l; simp [constructOutcome, Effect.constructOf, List.findSome?_cons]
  have p1 : ∀ l, pingOutcome b (Effect.jsonDecode r.Body :: l) = pingOutcome b l := by
    intro l; simp [pingOutcome, Effect.pingOf, List.findSome?_cons]
  have c2 : constructOutcome b [.headerSet "Content-Type" "application/json",
      .jsonEncode (responseOf env req)] = none := by
    simp [constructOutcome, Effect.constructOf, List.findSome?_cons]
  have p2 : pingOutcome b [.headerSet "Content-Type" "application/json",
      .jsonEncode (responseOf env req)] = none := by
    simp [pingOutcome, Effect.pingOf, List.findSome?_cons]
  simp only [c1, p1, constructOutcome_append, pingOutcome_append, c2, p2]
  have e1 := hcd .PostgreSQL
  have e2 := hcd .MySQL
  have e3 := hcd .MongoDB
  have e4 := hcd .Redis
  have f1 := hpd .PostgreSQL
  have f2 := hpd .MySQL
  have f3 := hpd .MongoDB
  have f4 := hpd .Redis
  simp only [probe] at e1 e2 e3 e4 f1 f2 f3 f4
  cases b
  · have a2 := hc .MySQL (by decide)
    have a3 := hc .MongoDB (by decide)
    have a4 := hc .Redis (by decide)
    have b2 := hp .MySQL (by decide)
    have b3 := hp .MongoDB (by decide)
    have b4 := hp .Redis (by decide)
    simp only [probe] at a2 a3 a4 b2 b3 b4 ⊢
    simp [e1, e2, e3, e4, f1, f2, f3, f4, a2, a3, a4, b2, b3, b4]
  · have a2 := hc .PostgreSQL (by decide)
    have a3 := hc .MongoDB (by decide)
    have a4 := hc .Redis (by decide)
    have b2 := hp .PostgreSQL (by decide)
    have b3 := hp .MongoDB (by decide)
    have b4 := hp .Redis (by decide)
    simp only [probe] at a2 a3 a4 b2 b3 b4 ⊢
    simp [e1, e2, e3, e4, f1, f2, f3, f4, a2, a3, a4, b2, b3, b4]
  · have a2 := hc .PostgreSQL (by decide)
    have a3 := hc .MySQL (by decide)
    have a4 := hc .Redis (by decide)
    have b2 := hp .PostgreSQL (by decide)
    have b3 := hp .MySQL (by decide)
    have b4 := hp .Redis (by decide)
    simp only [probe] at a2 a3 a4 b2 b3 b4 ⊢
    simp [e1, e2, e3, e4, f1, f2, f3, f4, a2, a3, a4, b2, b3, b4]
  · have a2 := hc .PostgreSQL (by decide)
    have a3 := hc .MySQL (by decide)
    have a4 := hc .MongoDB (by decide)
    have b2 := hp .PostgreSQL (by decide)
    have b3 := hp .MySQL (by decide)
    have b4 := hp .MongoDB (by decide)
    simp only [probe] at a2 a3 a4 b2 b3 b4 ⊢
    simp [e1, e2, e3, e4, f1, f2, f3, f4, a2, a3, a4, b2, b3, b4]


/-- The fields of the response are the strings of the four blocks. -/
theorem field_responseOf (env : Env) (req : HealthCheckRequest) (b : Backend) :
    (responseOf env req).field b = (probe env req b).field := by
  cases b <;> rfl

/-- The three outcomes of a block, with the string each assigns. A failed Redis
ping is rendered with the connect prefix. -/
theorem probe_classify (env : Env) (req : HealthCheckRequest) (b : Backend) :
    (constructOutcome b (probe env req b).calls = some none
      ∧ pingOutcome b (probe env req b).calls = some none
      ∧ (probe env req b).field = aliveString b)
    ∨ (∃ err, constructOutcome b (probe env req b).calls = some (some err)
      ∧ pingOutcome b (probe env req b).calls = none
      ∧ (probe env req b).field = connectPrefix b ++ err)
    ∨ (∃ err, constructOutcome b (probe env req b).calls = some none
      ∧ pingOutcome b (probe env req b).calls = some (some err)
      ∧ (probe env req b).field
          = (if b = .Redis then connectPrefix b else pingPrefix b) ++ err) := by
  have hc := Sprintf_connect
  have hp := Sprintf_ping
  cases b <;> simp only [probe, probePostgres, probeMySQL, probeMongoDB, probeRedis,
      reduceCtorEq, if_false, if_true]
    <;> (repeat' split)
    <;> simp [constructOutcome, pingOutcome, Effect.constructOf, Effect.pingOf, hc, hp,
      aliveString, connectPrefix, pingPrefix, Backend.name]

/-- A failure string is not the alive string: it starts with another letter. -/
theorem failure_ne_alive (b : Backend) (err : String) :
    connectPrefix b ++ err ≠ aliveString b ∧ pingPrefix b ++ err ≠ aliveString b := by
  constructor <;> intro h <;> have h2 := congrArg String.data h <;> cases b <;>
    simp [connectPrefix, pingPrefix, aliveString, Backend.name] at h2

/-- A connect-failure string does not start with the ping-failure prefix. -/
theorem connect_not_ping (b : Backend) (err : String) :
    ¬ StartsWith (pingPrefix b) (connectPrefix b ++ err) := by
  rintro ⟨rest, h⟩
  have h2 := congrArg String.data h
  cases b <;> simp [connectPrefix, pingPrefix, aliveString, Backend.name] at h2

/-- The alive string does not start with the ping-failure prefix. -/
theorem alive_not_ping (b : Backend) : ¬ StartsWith (pingPrefix b) (aliveString b) := by
  rintro ⟨rest, h⟩
  have h2 := congrArg String.data h
  cases b <;> simp [connectPrefix, pingPrefix, aliveString, Backend.name] at h2

/-- The string written to field `b` for a decoded request is the string of the
block of `b`. -/
theorem fieldWritten_decoded (env : Env) (r : Request) (req : HealthCheckRequest) (b : Backend)
    (hm : r.Method = "POST") (hd : Decode r.Body = .ok req) :
    fieldWritten b (serve env r) = some ((probe env req b).field) := by
  rw [serve_decoded env r req hm hd]
  simp [fieldWritten, ResponseWriter.encoded, field_responseOf]

/-- The three outcomes of the block of `b`, read from the run of a decoded
request. -/
theorem run_classify (env : Env) (r : Request) (req : HealthCheckRequest) (b : Backend)
    (hm : r.Method = "POST") (hd : Decode r.Body = .ok req) :
    (constructOutcome b (serve env r).trace = some none
      ∧ pingOutcome b (serve env r).trace = some none
      ∧ fieldWritten b (serve env r) = some (aliveString b))
    ∨ (∃ err, constructOutcome b (serve env r).trace = some (some err)
      ∧ pingOutcome b (serve env r).trace = none
      ∧ fieldWritten b (serve env r) = some (connectPrefix b ++ err))
    ∨ (∃ err, constructOutcome b (serve env r).trace = some none
      ∧ pingOutcome b (serve env r).trace = some (some err)
      ∧ fieldWritten b (serve env r)
          = some ((if b = .Redis then connectPrefix b else pingPrefix b) ++ err)) := by
  obtain ⟨hc, hp⟩ := outcomes_decoded env r req b hm hd
  rw [hc, hp, fieldWritten_decoded env r req b hm hd]
  rcases probe_classify env req b with h | ⟨err, h⟩ | ⟨err, h⟩
  · exact Or.inl ⟨h.1, h.2.1, by rw [h.2.2]⟩
  · exact Or.inr (Or.inl ⟨err, h.1, h.2.1, by rw [h.2.2]⟩)
  · exact Or.inr (Or.inr ⟨err, h.1, h.2.1, by rw [h.2.2]⟩)

/-- C3: for every backend `b` and any two runs of the handler on decoded requests
that agree on the sub-bundle of `b` and in which the driver of `b` gives the same
construct and ping outcomes, the string written to response field `b` is the same
in both runs, whatever the other three backends are asked and answer. -/
theorem field_independent_of_other_backends (b : Backend) (env1 env2 : Env) (r1 r2 : Request)
    (req1 req2 : HealthCheckRequest)
    (hm1 : r1.Method = "POST") (hd1 : Decode r1.Body = .ok req1)
    (hm2 : r2.Method = "POST") (hd2 : Decode r2.Body = .ok req2)
    (_hb : sameSubBundle b req1 req2)
    (hc : constructOutcome b (serve env1 r1).trace = constructOutcome b (serve env2 r2).trace)
    (hp : pingOutcome b (serve env1 r1).trace = pingOutcome b (serve env2 r2).trace) :
    fieldWritten b (serve env1 r1) = fieldWritten b (serve env2 r2)
    ∧ (fieldWritten b (serve env1 r1)).isSome = true := by
  have k1 := run_classify env1 r1 req1 b hm1 hd1
  have k2 := run_classify env2 r2 req2 b hm2 hd2
  rw [hc, hp] at k1
  rcases k1 with ⟨c1, p1, f1⟩ | ⟨e1, c1, p1, f1⟩ | ⟨e1, c1, p1, f1⟩ <;>
  rcases k2 with ⟨c2, p2, f2⟩ | ⟨e2, c2, p2, f2⟩ | ⟨e2, c2, p2, f2⟩ <;>
  simp_all

set_option maxRecDepth 100000 in
/-- C3 at a concrete input: the test request with every backend up, and a request
that carries the same Redis sub-bundle only, with only Redis up. The Redis field
is the same; the PostgreSQL field is not. -/
theorem field_independent_witness :
    sameSubBundle .Redis testPayload redisOnlyPayload
    ∧ fieldWritten .Redis (serve allUp testRequest) = fieldWritten .Redis (serve onlyRedisUp redisOnlyRequest)
    ∧ fieldWritten .Redis (serve allUp testRequest) = some "Redis is alive"
    ∧ fieldWritten .PostgreSQL (serve allUp testRequest)
        ≠ fieldWritten .PostgreSQL (serve onlyRedisUp redisOnlyRequest) :=
  ⟨by decide,
    (field_independent_of_other_backends .Redis allUp onlyRedisUp testRequest redisOnlyRequest
      testPayload redisOnlyPayload (by decide) decode_testBody (by decide) (by decide) (by decide)
      (by decide) (by decide)).1,
    by decide, by decide⟩

/-- C4: for every decoded request, every combination of driver outcomes and every
backend `b`, if response field `b` is the string `"<B> is alive"` then the
construction of the client of `b` and its liveness ping both succeeded in that run
(for Redis the ping is the `PING` issued inside `connectRedis`). -/
theorem alive_only_if_construct_and_ping_succeeded (env : Env) (r : Request)
    (req : HealthCheckRequest) (b : Backend)
    (hm : r.Method = "POST") (hd : Decode r.Body = .ok req)
    (halive : fieldWritten b (serve env r) = some (aliveString b)) :
    constructOutcome b (serve env r).trace = some none
    ∧ pingOutcome b (serve env r).trace = some none := by
  rcases run_classify env r req b hm hd with ⟨c, p, _⟩ | ⟨err, _, _, f⟩ | ⟨err, _, _, f⟩
  · exact ⟨c, p⟩
  · rw [halive] at f
    exact absurd (Option.some.inj f).symm (failure_ne_alive b err).1
  · rw [halive] at f
    have h := (Option.some.inj f).symm
    split at h
    · exact absurd h (failure_ne_alive b err).1
    · exact absurd h (failure_ne_alive b err).2

set_option maxRecDepth 100000 in
/-- C4 at a concrete input: the test request with every backend up, for MongoDB. -/
theorem alive_only_if_witness :
    fieldWritten .MongoDB (serve allUp testRequest) = some "MongoDB is alive"
    ∧ constructOutcome .MongoDB (serve allUp testRequest).trace = some none
    ∧ pingOutcome .MongoDB (serve allUp testRequest).trace = some none :=
  ⟨by decide,
    alive_only_if_construct_and_ping_succeeded allUp testRequest testPayload .MongoDB (by decide)
      decode_testBody (by decide)⟩

/-- The response of a decoded request, field by field. -/
theorem encoded_decoded (env : Env) (r : Request) (req : HealthCheckRequest)
    (hm : r.Method = "POST") (hd : Decode r.Body = .ok req) :
    (serve env r).w.body = [.json (responseOf env req)]
    ∧ (serve env r).w.Code = some 200
    ∧ (serve env r).w.ContentType = some "application/json" := by
  rw [serve_decoded env r req hm hd]
  simp [ResponseWriter.Code, ResponseWriter.ContentType, List.lookup]

/-- C5: for every POST request carrying a full valid bundle, if construction and
ping succeed for all four backends then the handler responds with HTTP 200 and
the body is the encoding of the response with the four fields
`"PostgreSQL is alive"`, `"MySQL is alive"`, `"MongoDB is alive"` and
`"Redis is alive"`. -/
theorem all_backends_up_gives_all_alive (env : Env) (r : Request) (req : HealthCheckRequest)
    (hm : r.Method = "POST") (hd : Decode r.Body = .ok req)
    (hup : ∀ b, constructOutcome b (serve env r).trace = some none
      ∧ pingOutcome b (serve env r).trace = some none) :
    (serve env r).w.Code = some 200
    ∧ (serve env r).w.body = [.json
        { PostgreSQL := "PostgreSQL is alive", MySQL := "MySQL is alive",
          MongoDB := "MongoDB is alive", Redis := "Redis is alive" }] := by
  obtain ⟨hbody, hcode, _⟩ := encoded_decoded env r req hm hd
  refine ⟨hcode, ?_⟩
  have key : ∀ b, (probe env req b).field = aliveString b := by
    intro b
    have hf := fieldWritten_decoded env r req b hm hd
    rcases run_classify env r req b hm hd with ⟨_, _, f⟩ | ⟨err, c, _, _⟩ | ⟨err, _, p, _⟩
    · rw [hf] at f
      exact Option.some.inj f
    · rw [(hup b).1] at c
      cases c
    · rw [(hup b).2] at p
      cases p
  rw [hbody]
  have k1 := key .PostgreSQL
  have k2 := key .MySQL
  have k3 := key .MongoDB
  have k4 := key .Redis
  simp only [probe] at k1 k2 k3 k4
  simp only [responseOf, k1, k2, k3, k4]
  rfl

set_option maxRecDepth 100000 in
/-- C5 at a concrete input: the request of `TestHealthCheckHandler` with every
backend up. -/
theorem all_backends_up_witness :
    (serve allUp testRequest).w.Code = some 200
    ∧ (serve allUp testRequest).w.body = [.json
        { PostgreSQL := "PostgreSQL is alive", MySQL := "MySQL is alive",
          MongoDB := "MongoDB is alive", Redis := "Redis is alive" }] :=
  all_backends_up_gives_all_alive allUp testRequest testPayload (by decide) decode_testBody
    (fun b => by cases b <;> decide)

/-- C6: for every POST request whose body decodes (a body that omits sub-bundles
decodes to zero-valued fields) and for every combination of probe outcomes, the
handler responds with HTTP 200 and `Content-Type: application/json`, and the body
is the encoding of one response, a JSON object with exactly the four string
members `postgresql`, `mysql`, `mongodb` and `redis`. -/
theorem decoded_request_gives_200_json (env : Env) (r : Request) (req : HealthCheckRequest)
    (hm : r.Method = "POST") (hd : Decode r.Body = .ok req) :
    (serve env r).w.Code = some 200
    ∧ (serve env r).w.ContentType = some "application/json"
    ∧ ∃ resp p m g d, (serve env r).w.body = [.json resp]
        ∧ resp.toJSON = .obj [("postgresql", .str p), ("mysql", .str m), ("mongodb", .str g),
            ("redis", .str d)] := by
  obtain ⟨hbody, hcode, htype⟩ := encoded_decoded env r req hm hd
  exact ⟨hcode, htype, responseOf env req, _, _, _, _, hbody, rfl⟩

/-- C6 at a concrete input: the body is the empty object, and every ping, or every
construction, fails. -/
theorem decoded_request_witness :
    Decode emptyObjectRequest.Body = .ok HealthCheckRequest.zero
    ∧ (serve allDown emptyObjectRequest).w.Code = some 200
    ∧ (serve allDown emptyObjectRequest).w.ContentType = some "application/json"
    ∧ (serve noDriver emptyObjectRequest).w.Code = some 200 :=
  ⟨by decide,
    (decoded_request_gives_200_json allDown emptyObjectRequest HealthCheckRequest.zero
      (by decide) (by decide)).1,
    (decoded_request_gives_200_json allDown emptyObjectRequest HealthCheckRequest.zero
      (by decide) (by decide)).2.1,
    (decoded_request_gives_200_json noDriver emptyObjectRequest HealthCheckRequest.zero
      (by decide) (by decide)).1⟩

/-- C7, as stated, fails: the body `null` is no JSON object, yet it decodes, to the
zero-valued request; the handler answers it with HTTP 200 and constructs
clients. -/
theorem null_body_is_decoded_and_served :
    (readValue "null").map JSON.isNull = .ok true
    ∧ Decode "null" = .ok HealthCheckRequest.zero
    ∧ (serve allUp ⟨"POST", "null"⟩).w.Code = some 200
    ∧ (serve allUp ⟨"POST", "null"⟩).w.Code ≠ some 400
    ∧ (serve allUp ⟨"POST", "null"⟩).trace.any Effect.isConstruct = true := by
  decide

/-- A first value of the wrong type is rejected with an `UnmarshalTypeError`. -/
theorem wrongTopLevelType_rejected (body : String) (h : wrongTopLevelType body = true) :
    ∃ err, Decode body = .error err := by
  unfold wrongTopLevelType at h
  unfold Decode
  split at h
  · cases h
  · rename_i v hv
    cases v <;> simp [JSON.isObjectOrNull] at h <;>
      exact ⟨.UnmarshalTypeError _ "", rfl⟩

/-- A body without a complete JSON value is rejected with the scanner's error. -/
theorem malformed_rejected (body : String) (h : malformed body = true) :
    ∃ err, Decode body = .error err := by
  unfold malformed at h
  unfold Decode
  split at h
  · rename_i e he
    exact ⟨e, rfl⟩
  · cases h

/-- C7, amended: for every POST request whose body the decoder rejects (the body
holds no complete JSON value: it is empty, truncated or malformed; or its first
value is an array, a string, a number or a boolean; or a member has the wrong
type), the handler responds with HTTP 400 and a plain-text body that is the line
`"Failed to decode request body: "` followed by the text of the decode error; it
constructs no client, and makes no call but the decoding and `http.Error`. -/
theorem rejected_body_gives_400 (env : Env) (r : Request) (hm : r.Method = "POST")
    (hbad : malformed r.Body = true ∨ wrongTopLevelType r.Body = true
      ∨ ∃ err, Decode r.Body = .error err) :
    ∃ err, Decode r.Body = .error err
      ∧ (serve env r).w.Code = some 400
      ∧ (serve env r).w.ContentType = some "text/plain; charset=utf-8"
      ∧ (serve env r).w.body
          = [.line ("Failed to decode request body: " ++ env.decodeErrorText err)]
      ∧ (serve env r).trace.any Effect.isConstruct = false
      ∧ (serve env r).trace = [.jsonDecode r.Body,
          .httpError ("Failed to decode request body: " ++ env.decodeErrorText err) 400] := by
  have hd : ∃ err, Decode r.Body = .error err := by
    rcases hbad with h | h | h
    · exact malformed_rejected _ h
    · exact wrongTopLevelType_rejected _ h
    · exact h
  obtain ⟨err, hd⟩ := hd
  refine ⟨err, hd, ?_⟩
  rw [serve_decode_error env r err hm hd, error_fresh]
  simp [ResponseWriter.Code, ResponseWriter.ContentType, List.lookup, Effect.isConstruct]

/-- C7, amended, at concrete inputs: a truncated body, a malformed one, the empty
body, a top-level array, string, number and boolean, and a member of the wrong
type. -/
theorem rejected_body_witness :
    (serve allUp ⟨"POST", "\x7b"⟩).w.Code = some 400
    ∧ (serve allUp ⟨"POST", "\x7b"⟩).w.body
        = [.line "Failed to decode request body: unexpected EOF"]
    ∧ (serve allUp ⟨"POST", "not-json"⟩).w.Code = some 400
    ∧ (serve allUp ⟨"POST", ""⟩).w.Code = some 400
    ∧ (serve allUp ⟨"POST", ""⟩).w.body = [.line "Failed to decode request body: EOF"]
    ∧ (serve allUp ⟨"POST", "[]"⟩).w.Code = some 400
    ∧ (serve allUp ⟨"POST", "\"text\""⟩).w.Code = some 400
    ∧ (serve allUp ⟨"POST", "7"⟩).w.Code = some 400
    ∧ (serve allUp ⟨"POST", "true"⟩).w.Code = some 400
    ∧ (serve allUp ⟨"POST", "\x7b\"redis\":\x7b\"db\":\"0\"\x7d\x7d"⟩).w.Code = some 400 :=
  have h1 := rejected_body_gives_400 allUp ⟨"POST", "\x7b"⟩ (by decide) (Or.inl (by decide))
  have h2 := rejected_body_gives_400 allUp ⟨"POST", "not-json"⟩ (by decide)
    (Or.inl (by decide))
  have h3 := rejected_body_gives_400 allUp ⟨"POST", ""⟩ (by decide) (Or.inl (by decide))
  have h4 := rejected_body_gives_400 allUp ⟨"POST", "[]"⟩ (by decide)
    (Or.inr (Or.inl (by decide)))
  have h5 := rejected_body_gives_400 allUp ⟨"POST", "\"text\""⟩ (by decide)
    (Or.inr (Or.inl (by decide)))
  have h6 := rejected_body_gives_400 allUp ⟨"POST", "7"⟩ (by decide)
    (Or.inr (Or.inl (by decide)))
  have h7 := rejected_body_gives_400 allUp ⟨"POST", "true"⟩ (by decide)
    (Or.inr (Or.inl (by decide)))
  have h8 := rejected_body_gives_400 allUp
    ⟨"POST", "\x7b\"redis\":\x7b\"db\":\"0\"\x7d\x7d"⟩ (by decide)
    (Or.inr (Or.inr ⟨.UnmarshalTypeError "string" "redis.db", by decide⟩))
  ⟨h1.elim fun _ h => h.2.1, by decide, h2.elim fun _ h => h.2.1, h3.elim fun _ h => h.2.1,
    by decide, h4.elim fun _ h => h.2.1, h5.elim fun _ h => h.2.1, h6.elim fun _ h => h.2.1,
    h7.elim fun _ h => h.2.1, h8.elim fun _ h => h.2.1⟩

/-- C8: for every request whose method is not POST, whatever its body, the handler
responds with HTTP 405 and the body line `"Method not allowed"`; its only call is
`http.Error`: it does not decode the body and constructs no client. -/
theorem non_post_gives_405 (env : Env) (r : Request) (hm : r.Method ≠ "POST") :
    (serve env r).w.Code = some 405
    ∧ (serve env r).w.body = [.line "Method not allowed"]
    ∧ (serve env r).trace = [.httpError "Method not allowed" 405]
    ∧ (serve env r).trace.any Effect.isConstruct = false := by
  rw [serve_not_post env r hm, error_fresh]
  simp [ResponseWriter.Code, Effect.isConstruct]

set_option maxRecDepth 100000 in
/-- C8 at concrete inputs: a `GET` with the body of the test, and the method `post`
in lower case with a body that does not decode. -/
theorem non_post_witness :
    (serve allUp getRequest).w.Code = some 405
    ∧ (serve allUp getRequest).w.body = [.line "Method not allowed"]
    ∧ (serve allUp ⟨"post", "\x7b"⟩).w.Code = some 405 :=
  ⟨(non_post_gives_405 allUp getRequest (by decide)).1,
    (non_post_gives_405 allUp getRequest (by decide)).2.1,
    (non_post_gives_405 allUp ⟨"post", "\x7b"⟩ (by decide)).1⟩

/-- C9: for every decoded request, every backend `b` and every probe outcome, the
response field of `b` is `"<B> is alive"`, or `"Failed to connect to <B>: "`
followed by the error text, or `"Failed to ping <B>: "` followed by the error of
the ping; and the Redis field is exactly `"Redis is alive"` or starts with
`"Failed to connect to Redis: "`, never with `"Failed to ping Redis: "`: the error
of a failed `PING` inside `connectRedis` is reported with the connect prefix. -/
theorem field_follows_template (env : Env) (r : Request) (req : HealthCheckRequest)
    (b : Backend) (hm : r.Method = "POST") (hd : Decode r.Body = .ok req) :
    ∃ s, fieldWritten b (serve env r) = some s
      ∧ (s = aliveString b
        ∨ (∃ err, s = connectPrefix b ++ err
            ∧ (constructOutcome b (serve env r).trace = some (some err)
              ∨ pingOutcome b (serve env r).trace = some (some err)))
        ∨ (∃ err, s = pingPrefix b ++ err
            ∧ pingOutcome b (serve env r).trace = some (some err)))
      ∧ (b = .Redis →
          (s = "Redis is alive" ∨ StartsWith "Failed to connect to Redis: " s)
          ∧ ¬ StartsWith "Failed to ping Redis: " s) := by
  have ha : aliveString .Redis = "Redis is alive" := by decide
  have hcp : connectPrefix .Redis = "Failed to connect to Redis: " := by decide
  have hpp : pingPrefix .Redis = "Failed to ping Redis: " := by decide
  rcases run_classify env r req b hm hd with ⟨_, _, f⟩ | ⟨err, c, _, f⟩ | ⟨err, _, p, f⟩
  · refine ⟨_, f, Or.inl rfl, ?_⟩
    intro hb
    subst hb
    exact ⟨Or.inl ha, by rw [← hpp]; exact alive_not_ping .Redis⟩
  · refine ⟨_, f, Or.inr (Or.inl ⟨err, rfl, Or.inl c⟩), ?_⟩
    intro hb
    subst hb
    exact ⟨Or.inr ⟨err, by rw [hcp]⟩, by rw [← hpp]; exact connect_not_ping .Redis err⟩
  · by_cases hb : b = .Redis
    · subst hb
      rw [if_pos rfl] at f
      refine ⟨_, f, Or.inr (Or.inl ⟨err, rfl, Or.inr p⟩), ?_⟩
      intro _
      exact ⟨Or.inr ⟨err, by rw [hcp]⟩, by rw [← hpp]; exact connect_not_ping .Redis err⟩
    · rw [if_neg hb] at f
      exact ⟨_, f, Or.inr (Or.inr ⟨err, rfl, p⟩), fun h => absurd h hb⟩

set_option maxRecDepth 100000 in
/-- C9 at concrete inputs: each of the failure strings, and the Redis field after
a failed `PING`. -/
theorem field_follows_template_witness :
    fieldWritten .Redis (serve redisDown testRequest)
      = some "Failed to connect to Redis: dial tcp 127.0.0.1:6379: connect: connection refused"
    ∧ fieldWritten .PostgreSQL (serve allDown testRequest)
      = some "Failed to ping PostgreSQL: connection refused"
    ∧ fieldWritten .MySQL (serve noDriver testRequest)
      = some "Failed to connect to MySQL: unknown driver"
    ∧ ∃ s, fieldWritten .Redis (serve redisDown testRequest) = some s
      ∧ ¬ StartsWith "Failed to ping Redis: " s := by
  refine ⟨by decide, by decide, by decide, ?_⟩
  obtain ⟨s, hs, _, h⟩ := field_follows_template redisDown testRequest testPayload .Redis
    (by decide) decode_testBody
  exact ⟨s, hs, (h rfl).2⟩

/-- C10: for all strings `user`, `password`, `dbname`, `host`, `port` and
`sslmode`, the data source name that `connectPostgres` passes to `sql.Open`, with
the driver name `postgres`, is exactly
`user=<user> password=<password> dbname=<dbname> host=<host> port=<port>
sslmode=<sslmode>`: the six arguments unchanged, in that order, nothing quoted or
escaped; it is the only call `connectPostgres` makes. -/
theorem connectPostgres_data_source_name (env : Env)
    (user password dbname host port sslmode : String) (f : Frame) :
    ((connectPostgres env user password dbname host port sslmode).run f).2.trace
      = f.trace ++ [.sqlOpen "postgres"
          ("user=" ++ user ++ " password=" ++ password ++ " dbname=" ++ dbname
            ++ " host=" ++ host ++ " port=" ++ port ++ " sslmode=" ++ sslmode)
          (env.sqlOpen "postgres"
            ("user=" ++ user ++ " password=" ++ password ++ " dbname=" ++ dbname
              ++ " host=" ++ host ++ " port=" ++ port ++ " sslmode=" ++ sslmode))] := by
  simp only [connectPostgres, Sprintf_connStr, StateT.run, bind, StateT.bind, emit, modify,
    modifyGet, MonadStateOf.modifyGet, StateT.modifyGet]
  cases env.sqlOpen "postgres"
    ("user=" ++ user ++ " password=" ++ password ++ " dbname=" ++ dbname
      ++ " host=" ++ host ++ " port=" ++ port ++ " sslmode=" ++ sslmode) <;> rfl

/-- C1, at the failing input: when the Redis `PING` fails, the handler returns
while the client that `redis.NewClient` created inside `connectRedis` is still
open; the two SQL handles and the MongoDB client have been released. -/
theorem redis_client_left_open_on_failed_ping :
    openClients (serve redisDown testRequest).trace = [.redis ⟨⟨"localhost:6379", "", 0⟩⟩]
    ∧ Effect.redisNewClient ⟨"localhost:6379", "", 0⟩ ∈ (serve redisDown testRequest).trace
    ∧ Effect.redisClose ⟨⟨"localhost:6379", "", 0⟩⟩ ∉ (serve redisDown testRequest).trace := by
  set_option maxRecDepth 100000 in decide

/-- The calls of a block are neither releases nor part of the response. -/
theorem calls_not_release (env : Env) (req : HealthCheckRequest) (b : Backend) :
    ∀ e ∈ (probe env req b).calls, e.isRelease = false ∧ e.isEmit = false := by
  cases b <;> simp only [probe, probePostgres, probeMySQL, probeMongoDB, probeRedis]
    <;> (repeat' split) <;> simp [Effect.isRelease, Effect.releases, Effect.isEmit]

/-- The deferred calls of a block are releases. -/
theorem deferred_release (env : Env) (req : HealthCheckRequest) (b : Backend) :
    ∀ e ∈ (probe env req b).deferred, e.isRelease = true ∧ e.isEmit = false := by
  cases b <;> simp only [probe, probePostgres, probeMySQL, probeMongoDB, probeRedis]
    <;> (repeat' split) <;> simp [Effect.isRelease, Effect.releases, Effect.isEmit]

/-- A trace made of a part without release and then a part that emits nothing has
every release after every emitting effect. -/
theorem follow_of_split (front back : List Effect)
    (hfront : ∀ e ∈ front, e.isRelease = false) (hback : ∀ e ∈ back, e.isEmit = false) :
    ReleasesFollowResponse (front ++ back) := by
  intro pre e post hsplit hemit x hx
  rcases List.append_eq_append_iff.mp hsplit with ⟨a, hpre, hb⟩ | ⟨c, hf, _⟩
  · have he : e ∈ back := by rw [hb]; simp
    rw [hback e he] at hemit
    cases hemit
  · exact hfront x (by rw [hf]; exact List.mem_append_left _ hx)

/-- The trace of a decoded request: the calls, the response, the releases. -/
theorem trace_shape (env : Env) (r : Request) (req : HealthCheckRequest)
    (hm : r.Method = "POST") (hd : Decode r.Body = .ok req) :
    ∃ calls releases,
      (serve env r).trace = calls ++ [.headerSet "Content-Type" "application/json",
        .jsonEncode (responseOf env req)] ++ releases
      ∧ (∀ e ∈ calls, e.isRelease = false ∧ e.isEmit = false)
      ∧ (∀ e ∈ releases, e.isRelease = true ∧ e.isEmit = false) := by
  refine ⟨.jsonDecode r.Body :: ((probePostgres env req.PostgreSQL).calls ++
      (probeMySQL env req.MySQL).calls ++ (probeMongoDB env req.MongoDB).calls ++
      (probeRedis env req.Redis).calls),
    (probeRedis env req.Redis).deferred ++ (probeMongoDB env req.MongoDB).deferred ++
      (probeMySQL env req.MySQL).deferred ++ (probePostgres env req.PostgreSQL).deferred,
    ?_, ?_, ?_⟩
  · rw [serve_decoded env r req hm hd]
    simp
  · have h1 := calls_not_release env req .PostgreSQL
    have h2 := calls_not_release env req .MySQL
    have h3 := calls_not_release env req .MongoDB
    have h4 := calls_not_release env req .Redis
    simp only [probe] at h1 h2 h3 h4
    intro e he
    simp only [List.mem_cons, List.mem_append] at he
    rcases he with rfl | ((he | he) | he) | he
    · exact ⟨rfl, rfl⟩
    · exact h1 e he
    · exact h2 e he
    · exact h3 e he
    · exact h4 e he
  · have h1 := deferred_release env req .PostgreSQL
    have h2 := deferred_release env req .MySQL
    have h3 := deferred_release env req .MongoDB
    have h4 := deferred_release env req .Redis
    simp only [probe] at h1 h2 h3 h4
    intro e he
    simp only [List.mem_append] at he
    rcases he with ((he | he) | he) | he
    · exact h4 e he
    · exact h3 e he
    · exact h2 e he
    · exact h1 e he

/-- C2, as stated, fails: in the run of the test request with all four backends
reachable, the JSON body is encoded first and the four releases follow it. -/
theorem releases_do_not_precede_response :
    ¬ ReleasesPrecedeResponse (serve allUp testRequest).trace := by
  intro h
  have ht : (serve allUp testRequest).trace
      = (serve allUp testRequest).trace.take 10
        ++ Effect.jsonEncode ⟨"PostgreSQL is alive", "MySQL is alive", "MongoDB is alive",
            "Redis is alive"⟩
          :: (serve allUp testRequest).trace.drop 11 := by
    set_option maxRecDepth 100000 in decide
  have hx : Effect.redisClose ⟨⟨"localhost:6379", "", 0⟩⟩
      ∈ (serve allUp testRequest).trace.drop 11 := by
    set_option maxRecDepth 100000 in decide
  exact absurd (h _ _ _ ht rfl _ hx) (by decide)

/-- C2, amended: for every POST request whose body decodes and every combination
of driver outcomes, each release of a client (`postgresDB.Close`, `mysqlDB.Close`,
`mongoClient.Disconnect`, `redisClient.Close`) occurs after the handler has
emitted its response: the trace is the library calls, then the `Content-Type`
header and the encoding of the JSON body, then the releases, which are the
deferred calls run as the handler returns. -/
theorem releases_follow_response (env : Env) (r : Request) (req : HealthCheckRequest)
    (hm : r.Method = "POST") (hd : Decode r.Body = .ok req) :
    ReleasesFollowResponse (serve env r).trace
    ∧ ∃ calls releases resp,
        (serve env r).trace = calls ++ [.headerSet "Content-Type" "application/json",
          .jsonEncode resp] ++ releases
        ∧ (∀ e ∈ calls, e.isRelease = false ∧ e.isEmit = false)
        ∧ (∀ e ∈ releases, e.isRelease = true) := by
  obtain ⟨calls, releases, ht, hc, hr⟩ := trace_shape env r req hm hd
  refine ⟨?_, calls, releases, _, ht, hc, fun e he => (hr e he).1⟩
  rw [ht]
  apply follow_of_split
  · intro e he
    simp only [List.mem_append, List.mem_cons, List.mem_singleton, List.not_mem_nil,
      or_false] at he
    rcases he with he | rfl | rfl
    · exact (hc e he).1
    · rfl
    · rfl
  · intro e he
    exact (hr e he).2

set_option maxRecDepth 100000 in
/-- C2, amended, at a concrete input: the tail of the trace of the test request
with every backend up. -/
theorem releases_follow_response_witness :
    ReleasesFollowResponse (serve allUp testRequest).trace
    ∧ (serve allUp testRequest).trace.drop 9
      = [.headerSet "Content-Type" "application/json",
          .jsonEncode ⟨"PostgreSQL is alive", "MySQL is alive", "MongoDB is alive",
            "Redis is alive"⟩,
          .redisClose ⟨⟨"localhost:6379", "", 0⟩⟩,
          .mongoDisconnect ⟨"mongodb://localhost:27017"⟩,
          .dbClose ⟨"mysql", "username:password@tcp(localhost:3306)/mydb"⟩,
          .dbClose ⟨"postgres", "user=postgres password=password dbname=query-bridge host=localhost port=5432 sslmode=disable"⟩] :=
  ⟨(releases_follow_response allUp testRequest testPayload (by decide) decode_testBody).1,
    by decide⟩

set_option maxHeartbeats 2000000 in
/-- X1: the clients still open when the handler returns from a decoded request: none
when the Redis `PING` succeeded, and the Redis client when it failed. The SQL
handles and the MongoDB client are released in every case. -/
theorem open_clients_at_return (env : Env) (r : Request) (req : HealthCheckRequest)
    (hm : r.Method = "POST") (hd : Decode r.Body = .ok req) :
    openClients (serve env r).trace =
      match env.redisPing ⟨⟨req.Redis.Address, req.Redis.Password, req.Redis.DB⟩⟩ with
      | some _ => [.redis ⟨⟨req.Redis.Address, req.Redis.Password, req.Redis.DB⟩⟩]
      | none => [] := by
  rw [serve_decoded env r req hm hd]
  simp only [probePostgres, probeMySQL, probeMongoDB, probeRedis]
  repeat' split
  all_goals simp_all [openClients, holdStep, Effect.opens, Effect.releases, List.erase_cons]

set_option maxRecDepth 100000 in
/-- X1 at concrete inputs: the test request with every backend up, and with no
backend reachable. -/
theorem open_clients_witness :
    openClients (serve allUp testRequest).trace = []
    ∧ openClients (serve allDown testRequest).trace = [.redis ⟨⟨"localhost:6379", "", 0⟩⟩] :=
  ⟨(open_clients_at_return allUp testRequest testPayload (by decide) decode_testBody).trans
      (by decide),
    (open_clients_at_return allDown testRequest testPayload (by decide) decode_testBody).trans
      (by decide)⟩

end HealthCheck
